import Mathlib

/-
Verification of the MoNet-Analyzer batch-analysis tool (src/main.py and
src/monet_engine.py) against its natural-language specification.

The embedding below models:
  - CSV cell values as `Cell` (integer, floating point, or text), matching the
    per-column dtypes that pandas read_csv produces: a column parsed as int64
    holds `Cell.int` values, a float64 column holds `Cell.float` values, and an
    object (text or mixed) column holds `Cell.str` values.  Rationals stand in
    for the float values (none of the verified claims involves rounding or NaN).
  - a pandas DataFrame as `Table` (a header list plus a list of rows).
  - numpy linspace, interp and diff by executable rational functions with the
    exact endpoint and interval-selection semantics of numpy.
  - the engine entry point run_inference as a function of the parsed read
    result and an abstract predictor (the external keras model is opaque; only
    its batch-to-probability-rows shape contract matters), with Python
    exceptions modelled by the Except monad and the outer try/except of
    run_inference mapping an escaped exception e to (None, 0, 0, "Error: " + e).
  - the settings store of main.py as functions over an abstract file state.
Rational arithmetic is unsealed so that concrete runs of the embedded code
reduce under kernel evaluation.
-/

set_option maxRecDepth 8000

unseal Rat.add Rat.sub Rat.mul Rat.inv

/-- ASCII lower-casing of one character, as Python str.lower acts on the ASCII
headers this tool handles. -/
def lowerChar (c : Char) : Char :=
  if c.toNat ≥ 65 && c.toNat ≤ 90 then Char.ofNat (c.toNat + 32) else c

/-- Python str.lower on ASCII text. -/
def lower (s : String) : String := ⟨s.data.map lowerChar⟩

/-- Whitespace recognised by Python str.strip. -/
def isWSChar (c : Char) : Bool :=
  c == ' ' || c == '\t' || c == '\n' || c == '\r' || c == '\x0b' || c == '\x0c'

/-- Drop leading whitespace characters. -/
def dropWS : List Char → List Char
  | [] => []
  | c :: t => if isWSChar c then dropWS t else c :: t

/-- Python str.strip: remove leading and trailing whitespace. -/
def strip (s : String) : String := ⟨dropWS ((dropWS s.data.reverse).reverse)⟩

/-- Auxiliary substring scan over character lists. -/
def subAux (n : List Char) : List Char → Bool
  | [] => n.isEmpty
  | c :: t => n.isPrefixOf (c :: t) || subAux n t

/-- The Python membership test (needle in hay) on strings. -/
def containsSub (hay needle : String) : Bool := subAux needle.data hay.data

/-- One CSV cell.  The constructor records the pandas dtype of the column the
cell came from: int64, float64 or object (text). -/
inductive Cell where
  | int (z : ℤ)
  | float (q : ℚ)
  | str (s : String)
deriving DecidableEq

/-- Numeric view of a cell, as numpy astype(float) sees it.  Text cells are
the non-convertible case (numeric text is parsed into numeric dtypes by
read_csv before the engine ever sees it). -/
def Cell.toQ? : Cell → Option ℚ
  | .int z => some (z : ℚ)
  | .float q => some q
  | .str _ => none

/-- Whether the cell belongs to a float64 column. -/
def Cell.isFloat : Cell → Bool
  | .float _ => true
  | _ => false

/-- Lexicographic order on character lists by code point, as Python compares
strings. -/
def charListLe : List Char → List Char → Bool
  | [], _ => true
  | _ :: _, [] => false
  | a :: as, b :: bs =>
    if a.toNat < b.toNat then true
    else if b.toNat < a.toNat then false
    else charListLe as bs

/-- Order on cells used when pandas sorts group keys and frame values:
numbers by value, text lexicographically (homogeneous columns in practice). -/
def cellLe (a b : Cell) : Bool :=
  match a.toQ?, b.toQ? with
  | some x, some y => decide (x ≤ y)
  | some _, none => true
  | none, some _ => false
  | none, none =>
    match a, b with
    | .str x, .str y => charListLe x.data y.data
    | _, _ => true

/-- A parsed CSV file: header names and rows of cells. -/
structure Table where
  headers : List String
  rows : List (List Cell)
deriving DecidableEq

/-- Cell of a row at a column position (missing positions read as empty
text, which never arises on well-formed tables). -/
def getCell (r : List Cell) (i : Nat) : Cell := r.getD i (.str "")

/-- One column of a table. -/
def colCells (t : Table) (i : Nat) : List Cell := t.rows.map (fun r => getCell r i)

/-- The state of the settings file on disk. -/
inductive SettingsFile where
  | absent
  | corrupt
  | stored (entries : List (String × String))

/-- Compiled-in defaults of load_settings (main.py line 23):
last_input is the home directory, filter_mode is All. -/
def settingsDefaults (home : String) : List (String × String) :=
  [("last_input", home), ("filter_mode", "All")]

/-- Association-list lookup (Python dict access). -/
def dlookup (k : String) : List (String × String) → Option String
  | [] => none
  | (k2, v) :: t => if k2 == k then some v else dlookup k t

/-- Python dict merge followed by insertion-order iteration:
keys of a first (with values from b where present), then the keys
of b that are not in a, in their order. -/
def dictMerge (a b : List (String × String)) : List (String × String) :=
  (a.map (fun p => (p.1, (dlookup p.1 b).getD p.2)))
    ++ b.filter (fun p => (dlookup p.1 a).isNone)

/-- Python dict assignment d[k] = v: update in place if the key exists,
else append. -/
def dsetKey (k v : String) : List (String × String) → List (String × String)
  | [] => [(k, v)]
  | (k2, v2) :: t => if k2 == k then (k, v) :: t else (k2, v2) :: dsetKey k v t

/-- load_settings (main.py lines 22-28): defaults merged with the parsed file
when it exists and parses; on absence or any parse failure the defaults alone.
Values are modelled as the strings this application stores. -/
def load_settings (home : String) : SettingsFile → List (String × String)
  | .stored m => dictMerge (settingsDefaults home) m
  | _ => settingsDefaults home

/-- save_settings (main.py lines 30-34): load current state, overwrite one key
with the string form of the value, write the whole mapping back. -/
def save_settings (home k v : String) (fs : SettingsFile) : SettingsFile :=
  .stored (dsetKey k v (load_settings home fs))

/-- Track-id header candidates (monet_engine.py line 43). -/
def trackCandidates : List String :=
  ["Trajectory", "Track ID", "TrackID", "Track", "Spot ID", "Particle ID"]

/-- Frame/time header candidates (line 46). -/
def frameCandidates : List String := ["Frame", "Frame ID", "Slice", "Time", "t"]

/-- X header candidates (line 49). -/
def xCandidates : List String := ["x", "xpx", "Position X", "X (um)", "X (px)"]

/-- Y header candidates (line 52). -/
def yCandidates : List String := ["y", "ypx", "Position Y", "Y (um)", "Y (px)"]

/-- The pass-1 test of _find_column (line 25): the lowered and stripped header
text equals some lowered candidate. -/
def exactMatchB (cands : List String) (c : String) : Bool :=
  (cands.map lower).contains (strip (lower c))

/-- The pass-2 test of _find_column (lines 29-30): some lowered candidate is a
substring of the lowered header text. -/
def subMatchB (cands : List String) (c : String) : Bool :=
  cands.any (fun cand => containsSub (lower c) (lower cand))

/-- The pass-1 loop of _find_column: first header passing the exact test, in
header order, with its position. -/
def findColumnP1 (cands : List String) (i : Nat) : List String → Option (String × Nat)
  | [] => none
  | c :: rest => if exactMatchB cands c then some (c, i) else findColumnP1 cands (i + 1) rest

/-- The pass-2 loop of _find_column: first header containing some candidate. -/
def findColumnP2 (cands : List String) (i : Nat) : List String → Option (String × Nat)
  | [] => none
  | c :: rest => if subMatchB cands c then some (c, i) else findColumnP2 cands (i + 1) rest

/-- _find_column (monet_engine.py lines 21-32): exact pass first, substring
pass only if the exact pass found nothing. -/
def find_column (cols cands : List String) : Option (String × Nat) :=
  match findColumnP1 cands 0 cols with
  | some r => some r
  | none => findColumnP2 cands 0 cols

/-- Minimum of a rational list (numpy min of a nonempty array). -/
def minQ : List ℚ → ℚ
  | [] => 0
  | h :: t => t.foldl min h

/-- Maximum of a rational list (numpy max of a nonempty array). -/
def maxQ : List ℚ → ℚ
  | [] => 0
  | h :: t => t.foldl max h

/-- numpy linspace(0, 1, n): n points from 0 to 1 inclusive. -/
def linspace01 (n : Nat) : List ℚ :=
  (List.range n).map (fun (i : Nat) => (i : ℚ) / ((n : ℚ) - 1))

/-- The fixed resampling length TARGET_FRAMES (monet_engine.py line 12). -/
def target_frames : Nat := 300

/-- Interval walk of numpy interp: at the sample point (t0, x0) with query q,
t0 being the rightmost sample position not exceeding q so far. -/
def interpFrom (q t0 x0 : ℚ) : List (ℚ × ℚ) → ℚ
  | [] => x0
  | (t1, x1) :: tl =>
    if q < t1 then x0 + (x1 - x0) * (q - t0) / (t1 - t0) else interpFrom q t1 x1 tl

/-- numpy interp of one query point against (position, value) samples: clamps
below the first position, interpolates on the interval whose left end is the
rightmost position not exceeding the query, clamps at and beyond the last. -/
def np_interp (q : ℚ) : List (ℚ × ℚ) → ℚ
  | [] => 0
  | (t0, x0) :: tl => if q < t0 then x0 else interpFrom q t0 x0 tl

/-- numpy diff along a row: successive differences. -/
def diffList : List ℚ → List ℚ
  | [] => []
  | [_] => []
  | x :: y :: t => (y - x) :: diffList (y :: t)

/-- Stable insertion into a sorted list (ties keep earlier elements first). -/
def insertSorted (le : α → α → Bool) (a : α) : List α → List α
  | [] => [a]
  | b :: t => if le b a then b :: insertSorted le a t else a :: b :: t

/-- Stable ascending sort; models pandas sort_values and sorted group keys on
the comparison function given (tie order among equal keys is unspecified by
the pandas default sort and is fixed here to the stable order). -/
def sortByB (le : α → α → Bool) (l : List α) : List α :=
  l.foldl (fun acc a => insertSorted le a acc) []

/-- g.sort_values(frame_col) (monet_engine.py line 62): rows of one group
sorted ascending by the frame column. -/
def sortRows (frameIdx : Nat) (rows : List (List Cell)) : List (List Cell) :=
  sortByB (fun r1 r2 => cellLe (getCell r1 frameIdx) (getCell r2 frameIdx)) rows

/-- The group keys of df.groupby: the distinct values of the track column in
ascending order (pandas groupby sorts keys by default). -/
def sortedKeys (cells : List Cell) : List Cell := (sortByB cellLe cells).dedup

/-- df.groupby(track_col) (line 61): one group per distinct key, each group
holding the rows carrying that key in original row order. -/
def groupsOf (rows : List (List Cell)) (trackIdx : Nat) : List (Cell × List (List Cell)) :=
  (sortedKeys (rows.map (fun r => getCell r trackIdx))).map
    (fun k => (k, rows.filter (fun r => getCell r trackIdx == k)))

/-- astype(float) over the chosen column of already frame-sorted rows: all
values numeric gives the rational list, any text value fails. -/
def cellsToQ? (colIdx : Nat) : List (List Cell) → Option (List ℚ)
  | [] => some []
  | r :: t =>
    match (getCell r colIdx).toQ?, cellsToQ? colIdx t with
    | some q, some qs => some (q :: qs)
    | _, _ => none

/-- The numeric series of one column of a group after sorting the group by its
frame column. -/
def seriesOf (frameIdx colIdx : Nat) (rows : List (List Cell)) : Option (List ℚ) :=
  cellsToQ? colIdx (sortRows frameIdx rows)

/-- t = t_raw - t_raw.min() (line 66). -/
def shiftTimes (ts : List ℚ) : List ℚ := ts.map (fun t => t - minQ ts)

/-- t /= t.max() (line 70), applied to the shifted times. -/
def normalizeTimes (ts : List ℚ) : List ℚ := ts.map (fun t => t / maxQ ts)

/-- np.interp(t_uniform, t, vals) (lines 78-79): the 300-point resampling of
one value series against the normalized times. -/
def resampleSeries (tn xs : List ℚ) : List ℚ :=
  (linspace01 target_frames).map (fun q => np_interp q (tn.zip xs))

/-- The body of the per-group loop of preprocess_trajectory (lines 61-81):
frame conversion failure raises out of the loop; a group with fewer than 3
samples or zero shifted time span is skipped; x or y conversion failure inside
the try block is silently skipped; otherwise the group key and both resampled
series are kept. -/
def processGroup (frameIdx xIdx yIdx : Nat) (key : Cell) (rows : List (List Cell)) :
    Except String (Option (Cell × List ℚ × List ℚ)) :=
  match seriesOf frameIdx frameIdx rows with
  | none => .error "could not convert string to float"
  | some t_raw =>
    let t := shiftTimes t_raw
    if t.length < 3 ∨ maxQ t = 0 then .ok none
    else
      let tn := normalizeTimes t
      match seriesOf frameIdx xIdx rows, seriesOf frameIdx yIdx rows with
      | some x_vals, some y_vals =>
        .ok (some (key, resampleSeries tn x_vals, resampleSeries tn y_vals))
      | _, _ => .ok none

/-- The whole group loop: groups in key order, errors propagating, skipped
groups dropped, surviving triples in order. -/
def collectGroups (frameIdx xIdx yIdx : Nat) :
    List (Cell × List (List Cell)) → Except String (List (Cell × List ℚ × List ℚ))
  | [] => .ok []
  | (k, rs) :: gs =>
    match processGroup frameIdx xIdx yIdx k rs with
    | .error e => .error e
    | .ok none => collectGroups frameIdx xIdx yIdx gs
    | .ok (some tr) =>
      match collectGroups frameIdx xIdx yIdx gs with
      | .error e => .error e
      | .ok ts => .ok (tr :: ts)

/-- Result of preprocess_trajectory short of a raised exception: the failure
tuple (None, None, _, msg) of lines 56 and 84, or the success tuple
(X_in, ids_list, df, msg) of line 90. -/
inductive PreResult where
  | fail (msg : String)
  | ok (input : List (List (List ℚ))) (ids : List Cell) (ref : Table) (msg : String)
deriving DecidableEq

/-- Python rendering of a possibly absent column name inside an f-string:
None prints as the text None. -/
def optColName : Option (String × Nat) → String
  | none => "None"
  | some (c, _) => c

/-- df.columns = [str(c).strip() for c in df.columns] (line 39). -/
def cleanHeadersOf (t : Table) : List String := t.headers.map strip

/-- preprocess_trajectory (monet_engine.py lines 34-90): works on a header
trimmed copy, resolves the four roles by the two-pass search, reports missing
columns naming only the track and frame findings, groups by the track column,
processes each group, fails when nothing survives, and otherwise returns the
stacked first differences of the resampled x series with a trailing singleton
dimension, the surviving ids in order, the trimmed copy and a success message. -/
def preprocess_trajectory (df_raw : Table) : Except String PreResult :=
  let headers := cleanHeadersOf df_raw
  let df : Table := ⟨headers, df_raw.rows⟩
  match find_column headers trackCandidates, find_column headers frameCandidates,
        find_column headers xCandidates, find_column headers yCandidates with
  | some (track_col, _), some (frame_col, _), some (x_col, _), some (y_col, _) =>
    let trackIdx := headers.findIdx (fun c => c == track_col)
    let frameIdx := headers.findIdx (fun c => c == frame_col)
    let xIdx := headers.findIdx (fun c => c == x_col)
    let yIdx := headers.findIdx (fun c => c == y_col)
    match collectGroups frameIdx xIdx yIdx (groupsOf df.rows trackIdx) with
    | .error e => .error e
    | .ok [] => .ok (.fail "0 valid tracks found (check lengths).")
    | .ok triples =>
      .ok (.ok (triples.map (fun tr => (diffList tr.2.1).map (fun d => [d])))
        (triples.map (fun tr => tr.1)) df "Success")
  | tc, fc, _, _ =>
    .ok (.fail ("Missing columns. Found: " ++ optColName tc ++ ", " ++ optColName fc))

/-- The fixed label order of the classifier (monet_engine.py line 107). -/
def labelsMap : List String := ["Brownian", "FBM", "CTRW"]

/-- Scan for the first position of the maximum (numpy argmax tie rule). -/
def argmaxAux : List ℚ → ℚ → Nat → Nat → Nat
  | [], _, best, _ => best
  | q :: t, bq, best, i => if bq < q then argmaxAux t q i (i + 1) else argmaxAux t bq best (i + 1)

/-- numpy argmax over one probability row. -/
def argmaxIdx : List ℚ → Nat
  | [] => 0
  | q :: t => argmaxAux t q 0 1

/-- The predicted label of one probability row (line 108). -/
def labelOf (probs : List ℚ) : String := labelsMap.getD (argmaxIdx probs) ""

/-- The loaded model as the engine sees it: batch of 299-step single-feature
difference sequences in, one probability row per batch entry out. -/
def Predictor : Type := List (List (List ℚ)) → List (List ℚ)

/-- The hardcoded name list of the write-back track lookup
(monet_engine.py line 127).  Note it is shorter than trackCandidates. -/
def writebackTrackNames : List String := ["trajectory", "track id", "trackid", "track"]

/-- The hardcoded name list of the write-back frame lookup (line 141).
Note it omits Slice and Time, which frameCandidates contains. -/
def writebackFrameNames : List String := ["frame", "frame id", "t"]

/-- The predicate of the generator expression on line 127:
str(c).strip().lower() in the hardcoded track list. -/
def isWritebackTrackName (c : String) : Bool := writebackTrackNames.contains (lower (strip c))

/-- The predicate of the generator expression on line 141. -/
def isWritebackFrameName (c : String) : Bool := writebackFrameNames.contains (lower (strip c))

/-- astype(int) on one cell of a float64 column: numpy float-to-int casting
truncates toward zero. -/
def intCastCell : Cell → Cell
  | .float q => .int (q.num.tdiv q.den)
  | c => c

/-- Column-wide astype(int) assignment on a filtered table. -/
def coerceColToInt (t : Table) (i : Nat) : Table :=
  ⟨t.headers, t.rows.map (fun r => r.set i (intCastCell (getCell r i)))⟩

/-- Whether a column of the raw table has dtype float64 (read_csv gives a
column float64 exactly when every value parses as floating point; filtering
rows preserves the dtype, so the filtered column has the dtype of the raw
one). -/
def colIsFloatDtype (t : Table) (i : Nat) : Bool := t.rows.all (fun r => (getCell r i).isFloat)

/-- The frame lookup of the write-back coercion (line 141): first clean header
whose stripped, lowered text is in the hardcoded frame list; None raises
StopIteration, swallowed by the bare except of line 147. -/
def findFrameCoerceCol (cleanHs : List String) : Option String :=
  cleanHs.find? isWritebackFrameName

/-- The integer-coercion block of run_inference (lines 134-148): coerce the
track column when its dtype is float; then look up a frame column by the
hardcoded list and coerce it likewise; a missing frame name ends the try block
through the bare except with the work already done kept. -/
def forceIntegers (cleanHs rawHs : List String) (raw filtered : Table) (trackIdx : Nat) : Table :=
  let t1 := if colIsFloatDtype raw trackIdx then coerceColToInt filtered trackIdx else filtered
  match findFrameCoerceCol cleanHs with
  | none => t1
  | some cf =>
    let frame_idx := cleanHs.findIdx (fun c => c == cf)
    let raw_frame_col := rawHs.getD frame_idx ""
    let rfi := rawHs.findIdx (fun c => c == raw_frame_col)
    if colIsFloatDtype raw rfi then coerceColToInt t1 rfi else t1

/-- pd.DataFrame() (line 119): the empty-but-present zero-row result. -/
def emptyTable : Table := ⟨[], []⟩

/-- run_inference (monet_engine.py lines 92-153) up to its outer try:
a thrown value models an escaped Python exception.  The read result stands for
pd.read_csv (a parse failure throws its message).  The length guard models the
pd.DataFrame constructor of line 111, which raises when the model returns a
batch of the wrong length.  Note the order of the checks: the empty-file
check, then preprocessing, then the missing-model check, exactly as in the
source. -/
def run_inference_e (model : Option Predictor) (read : Except String Table)
    (filter_type : String) : Except String (Option Table × Nat × Nat × String) :=
  match read with
  | .error e => .error e
  | .ok df_raw =>
    if df_raw.rows.isEmpty then .ok (none, 0, 0, "File is empty.")
    else
      match preprocess_trajectory df_raw with
      | .error e => .error e
      | .ok (.fail msg) => .ok (none, 0, 0, msg)
      | .ok (.ok X_in track_ids df_clean_ref _msg) =>
        match model with
        | none => .ok (none, 0, 0, "Model not loaded.")
        | some predict =>
          let pred_labels := (predict X_in).map labelOf
          if pred_labels.length ≠ track_ids.length then
            .error "All arrays must be of the same length"
          else
            let original_count := track_ids.length
            let results := track_ids.zip pred_labels
            let results2 :=
              if filter_type ≠ "All" then results.filter (fun p => p.2 == filter_type)
              else results
            if results2.isEmpty then
              .ok (some emptyTable, original_count, 0, "No " ++ filter_type ++ " tracks.")
            else
              let valid_ids := (results2.map (fun p => p.1)).dedup
              match df_clean_ref.headers.find? isWritebackTrackName with
              | none => .error ""
              | some clean_track_col =>
                let col_idx := df_clean_ref.headers.findIdx (fun c => c == clean_track_col)
                let raw_track_col := df_raw.headers.getD col_idx ""
                let rIdx := df_raw.headers.findIdx (fun c => c == raw_track_col)
                let filtered : Table :=
                  ⟨df_raw.headers, df_raw.rows.filter (fun r => valid_ids.contains (getCell r rIdx))⟩
                .ok (some (forceIntegers df_clean_ref.headers df_raw.headers df_raw filtered rIdx),
                  original_count, results2.length, "Success")

/-- run_inference with its outer try/except (lines 92-153): an escaped
exception e becomes the generic error result (None, 0, 0, "Error: " + str(e));
a StopIteration carries an empty str(e). -/
def run_inference (model : Option Predictor) (read : Except String Table)
    (filter_type : String) : Option Table × Nat × Nat × String :=
  match run_inference_e model read filter_type with
  | .ok r => r
  | .error e => (none, 0, 0, "Error: " ++ e)

/-- The per-file branch of the worker loop (main.py lines 233-246): an absent
result marks the row Error with zero counts and writes nothing; any present
result, zero rows included, is written to the output CSV and marks the row
Done with the returned counts.  Components: writes an output file, status
text, shown total, shown filtered. -/
def workerFileStep (res : Option Table × Nat × Nat × String) : Bool × String × Nat × Nat :=
  match res.1 with
  | none => (false, "Error", 0, 0)
  | some _ => (true, "Done", res.2.1, res.2.2.1)

/-- The surviving track ids of a file that preprocesses successfully. -/
def preprocessedIds (tbl : Table) : Option (List Cell) :=
  match preprocess_trajectory tbl with
  | .ok (.ok _ ids _ _) => some ids
  | _ => none

/-- The model input tensor of a file that preprocesses successfully. -/
def preprocessedInput (tbl : Table) : List (List (List ℚ)) :=
  match preprocess_trajectory tbl with
  | .ok (.ok X _ _ _) => X
  | _ => []

/-- Whether the write-back track lookup of line 127 succeeds on the cleaned
headers of a table. -/
def hasWritebackTrackCol (tbl : Table) : Bool :=
  ((cleanHeadersOf tbl).find? isWritebackTrackName).isSome

/-- The resampled x series of one surviving group, before differencing. -/
def processedX (frameIdx xIdx yIdx : Nat) (key : Cell) (rows : List (List Cell)) :
    Option (List ℚ) :=
  match processGroup frameIdx xIdx yIdx key rows with
  | .ok (some (_, rx, _)) => some rx
  | _ => none

/-- A predictor returning the Brownian probability row for every entry of the
batch, used as the concrete model of several checks. -/
def predictAllBrownian : Predictor := fun xs => xs.map (fun _ => [(9 : ℚ)/10, 1/20, 1/20])

/-- The status message of a file that preprocesses successfully. -/
def preprocessedMsg (tbl : Table) : Option String :=
  match preprocess_trajectory tbl with
  | .ok (.ok _ _ _ m) => some m
  | _ => none

/-- A predictor assigning, by batch position, Brownian to the first 3 entries,
FBM to the next 4 and CTRW to the rest: the 3/4/3 example of the
specification on a ten-track file. -/
def predictByIndex : Predictor := fun xs =>
  (List.range xs.length).map (fun i =>
    if i < 3 then [(1 : ℚ), 0, 0] else if i < 7 then [0, 1, 0] else [0, 0, 1])


/-- A ten-track file, three samples per track, used by the filtering checks. -/
def tenTrackTable : Table :=
  ⟨["Trajectory", "Frame", "x", "y"],
  [[Cell.int 1, Cell.int 0, Cell.int 0, Cell.int 0],
   [Cell.int 1, Cell.int 1, Cell.int 1, Cell.int 0],
   [Cell.int 1, Cell.int 2, Cell.int 2, Cell.int 0],
   [Cell.int 2, Cell.int 0, Cell.int 0, Cell.int 0],
   [Cell.int 2, Cell.int 1, Cell.int 1, Cell.int 0],
   [Cell.int 2, Cell.int 2, Cell.int 2, Cell.int 0],
   [Cell.int 3, Cell.int 0, Cell.int 0, Cell.int 0],
   [Cell.int 3, Cell.int 1, Cell.int 1, Cell.int 0],
   [Cell.int 3, Cell.int 2, Cell.int 2, Cell.int 0],
   [Cell.int 4, Cell.int 0, Cell.int 0, Cell.int 0],
   [Cell.int 4, Cell.int 1, Cell.int 1, Cell.int 0],
   [Cell.int 4, Cell.int 2, Cell.int 2, Cell.int 0],
   [Cell.int 5, Cell.int 0, Cell.int 0, Cell.int 0],
   [Cell.int 5, Cell.int 1, Cell.int 1, Cell.int 0],
   [Cell.int 5, Cell.int 2, Cell.int 2, Cell.int 0],
   [Cell.int 6, Cell.int 0, Cell.int 0, Cell.int 0],
   [Cell.int 6, Cell.int 1, Cell.int 1, Cell.int 0],
   [Cell.int 6, Cell.int 2, Cell.int 2, Cell.int 0],
   [Cell.int 7, Cell.int 0, Cell.int 0, Cell.int 0],
   [Cell.int 7, Cell.int 1, Cell.int 1, Cell.int 0],
   [Cell.int 7, Cell.int 2, Cell.int 2, Cell.int 0],
   [Cell.int 8, Cell.int 0, Cell.int 0, Cell.int 0],
   [Cell.int 8, Cell.int 1, Cell.int 1, Cell.int 0],
   [Cell.int 8, Cell.int 2, Cell.int 2, Cell.int 0],
   [Cell.int 9, Cell.int 0, Cell.int 0, Cell.int 0],
   [Cell.int 9, Cell.int 1, Cell.int 1, Cell.int 0],
   [Cell.int 9, Cell.int 2, Cell.int 2, Cell.int 0],
   [Cell.int 10, Cell.int 0, Cell.int 0, Cell.int 0],
   [Cell.int 10, Cell.int 1, Cell.int 1, Cell.int 0],
   [Cell.int 10, Cell.int 2, Cell.int 2, Cell.int 0]]⟩

theorem dlookup_map_keep (k : String) (f : String → String → String) :
    ∀ (a : List (String × String)),
      dlookup k (a.map (fun p => (p.1, f p.1 p.2)))
        = (dlookup k a).map (fun v => f k v) := by
  intro a
  induction a with
  | nil => rfl
  | cons p t ih =>
    by_cases h : p.1 == k
    · have hk : p.1 = k := by simpa using h
      simp [dlookup, hk]
    · simp [dlookup, h, ih]

theorem dlookup_filter_out (k : String) (p : String × String → Bool)
    (hp : ∀ v, p (k, v) = true) :
    ∀ (b : List (String × String)), dlookup k (b.filter p) = dlookup k b := by
  intro b
  induction b with
  | nil => rfl
  | cons e t ih =>
    by_cases h : e.1 == k
    · have hk : e.1 = k := by simpa using h
      have hpe : p e = true := by
        have h2 := hp e.2
        rw [← hk] at h2
        exact h2
      simp [List.filter, hpe, dlookup, hk, ih]
    · by_cases hpe : p e = true
      · simp [List.filter, hpe, dlookup, h, ih]
      · simp only [Bool.not_eq_true] at hpe
        simp [List.filter, hpe, dlookup, h, ih]

theorem dlookup_append (k : String) (a b : List (String × String)) :
    dlookup k (a ++ b)
      = match dlookup k a with
        | some v => some v
        | none => dlookup k b := by
  induction a with
  | nil => rfl
  | cons e t ih =>
    by_cases h : e.1 == k
    · simp [dlookup, h]
    · simp [dlookup, h, ih]

theorem dlookup_dictMerge (k : String) (a b : List (String × String)) :
    dlookup k (dictMerge a b)
      = match dlookup k a with
        | some v => some ((dlookup k b).getD v)
        | none => dlookup k b := by
  unfold dictMerge
  rw [dlookup_append]
  rw [dlookup_map_keep k (fun k2 v => (dlookup k2 b).getD v) a]
  cases h : dlookup k a with
  | none =>
    simp only [Option.map_none]
    apply dlookup_filter_out
    intro v
    simp [h]
  | some v => simp

theorem dlookup_dsetKey_self (k v : String) :
    ∀ (l : List (String × String)), dlookup k (dsetKey k v l) = some v := by
  intro l
  induction l with
  | nil => simp [dsetKey, dlookup]
  | cons e t ih =>
    by_cases h : e.1 == k
    · simp [dsetKey, h, dlookup]
    · simp [dsetKey, h, dlookup, ih]

theorem dlookup_dsetKey_ne (k v k2 : String) (hne : k2 ≠ k) :
    ∀ (l : List (String × String)), dlookup k2 (dsetKey k v l) = dlookup k2 l := by
  intro l
  induction l with
  | nil =>
    simp [dsetKey, dlookup]
    intro h
    exact absurd h.symm hne
  | cons e t ih =>
    by_cases h : e.1 == k
    · have hk : e.1 = k := by simpa using h
      have h1 : (k == k2) = false := by
        simp [BEq.comm]
        exact fun hh => absurd hh.symm hne
      have h2 : (e.1 == k2) = false := by
        rw [hk]
        exact h1
      simp [dsetKey, h, dlookup, h1, h2]
    · simp [dsetKey, h, dlookup, ih]

/-- C9. Settings round-trip and defaults: after save_settings k v, load_settings
maps k to the stored string and leaves every other key of the previously loaded
state (recognised or not) unchanged; when the settings file is absent or does
not parse, load_settings returns exactly the two defaults, the failure being
swallowed. -/
theorem c9_settings_round_trip (home k v : String) (fs : SettingsFile) :
    dlookup k (load_settings home (save_settings home k v fs)) = some v
    ∧ (∀ k2, k2 ≠ k →
        dlookup k2 (load_settings home (save_settings home k v fs))
          = dlookup k2 (load_settings home fs))
    ∧ load_settings home .absent = settingsDefaults home
    ∧ load_settings home .corrupt = settingsDefaults home := by
  refine ⟨?_, ?_, rfl, rfl⟩
  · show dlookup k (dictMerge (settingsDefaults home) (dsetKey k v (load_settings home fs))) = some v
    rw [dlookup_dictMerge]
    cases h : dlookup k (settingsDefaults home) with
    | none => simp [dlookup_dsetKey_self]
    | some v0 => simp [dlookup_dsetKey_self]
  · intro k2 hne
    show dlookup k2 (dictMerge (settingsDefaults home) (dsetKey k v (load_settings home fs)))
        = dlookup k2 (load_settings home fs)
    rw [dlookup_dictMerge]
    rw [dlookup_dsetKey_ne k v k2 hne]
    cases h : dlookup k2 (settingsDefaults home) with
    | none => simp
    | some v0 =>
      cases fs with
      | absent => simp [load_settings, h]
      | corrupt => simp [load_settings, h]
      | stored m =>
        simp only [load_settings]
        rw [dlookup_dictMerge]
        rw [h]
        simp

/-- Witness for C9 at the concrete inputs of the specification: saving
filter_mode = FBM and loading returns FBM for filter_mode, preserves an
unrecognised stored key, and a corrupt file loads to exactly the defaults. -/
theorem c9_settings_round_trip_witness :
    dlookup "filter_mode"
        (load_settings "/home/u"
          (save_settings "/home/u" "filter_mode" "FBM"
            (.stored [("filter_mode", "All"), ("custom", "z")]))) = some "FBM"
    ∧ dlookup "custom"
        (load_settings "/home/u"
          (save_settings "/home/u" "filter_mode" "FBM"
            (.stored [("filter_mode", "All"), ("custom", "z")]))) = some "z"
    ∧ load_settings "/home/u" .corrupt = [("last_input", "/home/u"), ("filter_mode", "All")] := by
  have h := c9_settings_round_trip "/home/u" "filter_mode" "FBM"
    (.stored [("filter_mode", "All"), ("custom", "z")])
  refine ⟨h.1, ?_, h.2.2.2⟩
  have h2 := h.2.1 "custom" (by decide)
  rw [h2]
  decide

theorem findColumnP1_eq_find (cands : List String) :
    ∀ (cols : List String) (n : Nat),
      findColumnP1 cands n cols
        = ((List.enumFrom n cols).find? (fun p => exactMatchB cands p.2)).map
            (fun p => (p.2, p.1)) := by
  intro cols
  induction cols with
  | nil => intro n; rfl
  | cons c rest ih =>
    intro n
    by_cases h : exactMatchB cands c
    · simp [findColumnP1, h, List.enumFrom, List.find?]
    · simp only [Bool.not_eq_true] at h
      simp [findColumnP1, h, List.enumFrom, List.find?, ih]

theorem findColumnP2_eq_find (cands : List String) :
    ∀ (cols : List String) (n : Nat),
      findColumnP2 cands n cols
        = ((List.enumFrom n cols).find? (fun p => subMatchB cands p.2)).map
            (fun p => (p.2, p.1)) := by
  intro cols
  induction cols with
  | nil => intro n; rfl
  | cons c rest ih =>
    intro n
    by_cases h : subMatchB cands c
    · simp [findColumnP2, h, List.enumFrom, List.find?]
    · simp only [Bool.not_eq_true] at h
      simp [findColumnP2, h, List.enumFrom, List.find?, ih]

/-- C3 (amended). Column role resolution: the two-pass search scans headers in
their original left-to-right order, returning the first exact
(trimmed, lower-cased) match, and, only when no header matches exactly, the
first header containing some candidate as a lower-cased substring; the headers
of the specification example resolve to the four roles at positions 0-3; and a
table with an unresolved role fails preprocessing with the message naming the
track and frame findings (the message does not name the missing role, which is
the correction relative to the written claim). -/
theorem c3_column_resolution :
    (∀ (cols cands : List String),
      find_column cols cands
        = match ((List.enumFrom 0 cols).find? (fun p => exactMatchB cands p.2)).map
              (fun p => (p.2, p.1)) with
          | some r => some r
          | none =>
            ((List.enumFrom 0 cols).find? (fun p => subMatchB cands p.2)).map
              (fun p => (p.2, p.1)))
    ∧ (find_column (["Spot ID", " Frame ", " Position X", " Position Y"].map strip)
          trackCandidates = some ("Spot ID", 0)
        ∧ find_column (["Spot ID", " Frame ", " Position X", " Position Y"].map strip)
            frameCandidates = some ("Frame", 1)
        ∧ find_column (["Spot ID", " Frame ", " Position X", " Position Y"].map strip)
            xCandidates = some ("Position X", 2)
        ∧ find_column (["Spot ID", " Frame ", " Position X", " Position Y"].map strip)
            yCandidates = some ("Position Y", 3))
    ∧ (∀ (tbl : Table), find_column (cleanHeadersOf tbl) yCandidates = none →
        preprocess_trajectory tbl
          = .ok (.fail ("Missing columns. Found: "
              ++ optColName (find_column (cleanHeadersOf tbl) trackCandidates) ++ ", "
              ++ optColName (find_column (cleanHeadersOf tbl) frameCandidates)))) := by
  refine ⟨?_, ?_, ?_⟩
  · intro cols cands
    unfold find_column
    rw [findColumnP1_eq_find, findColumnP2_eq_find]
  · exact ⟨by decide, by decide, by decide, by decide⟩
  · intro tbl hy
    unfold preprocess_trajectory
    cases h1 : find_column (cleanHeadersOf tbl) trackCandidates with
    | none =>
      cases h2 : find_column (cleanHeadersOf tbl) frameCandidates with
      | none =>
        cases h3 : find_column (cleanHeadersOf tbl) xCandidates with
        | none => simp [hy, h1, h2, h3]
        | some xc => simp [hy, h1, h2, h3]
      | some fc =>
        cases h3 : find_column (cleanHeadersOf tbl) xCandidates with
        | none => simp [hy, h1, h2, h3]
        | some xc => simp [hy, h1, h2, h3]
    | some tc =>
      cases h2 : find_column (cleanHeadersOf tbl) frameCandidates with
      | none =>
        cases h3 : find_column (cleanHeadersOf tbl) xCandidates with
        | none => simp [hy, h1, h2, h3]
        | some xc => simp [hy, h1, h2, h3]
      | some fc =>
        cases h3 : find_column (cleanHeadersOf tbl) xCandidates with
        | none => simp [hy, h1, h2, h3]
        | some xc => simp [hy, h1, h2, h3]

/-- Witness for C3 at the specification example: a table whose headers carry
the track, frame and x roles but no y role fails preprocessing with the
missing-columns message naming the Spot ID and Frame findings. -/
theorem c3_column_resolution_witness :
    preprocess_trajectory
        ⟨["Spot ID", " Frame ", " Position X"], [[Cell.int 1, Cell.int 0, Cell.int 0]]⟩
      = .ok (.fail "Missing columns. Found: Spot ID, Frame") := by
  have h := c3_column_resolution.2.2
    ⟨["Spot ID", " Frame ", " Position X"], [[Cell.int 1, Cell.int 0, Cell.int 0]]⟩
    (by decide)
  rw [h]
  rfl

/-- Counterexample for C3 as frozen: the failure message does not identify the
missing role.  A table missing the x role and a table missing the y role
produce the identical message, so the message cannot identify which role was
unresolved. -/
theorem c3_message_counterexample :
    preprocess_trajectory ⟨["Track", "Frame", "y"], [[Cell.int 1, Cell.int 0, Cell.int 0]]⟩
        = .ok (.fail "Missing columns. Found: Track, Frame")
    ∧ preprocess_trajectory ⟨["Track", "Frame", "x"], [[Cell.int 1, Cell.int 0, Cell.int 0]]⟩
        = .ok (.fail "Missing columns. Found: Track, Frame") := by
  exact ⟨rfl, rfl⟩

theorem processGroup_key (frameIdx xIdx yIdx : Nat) (key : Cell) (rows : List (List Cell))
    (tr : Cell × List ℚ × List ℚ)
    (h : processGroup frameIdx xIdx yIdx key rows = .ok (some tr)) : tr.1 = key := by
  unfold processGroup at h
  cases hs : seriesOf frameIdx frameIdx rows with
  | none => rw [hs] at h; exact absurd h (by simp)
  | some t_raw =>
    rw [hs] at h
    simp only at h
    split at h
    · exact absurd h (by simp)
    · split at h
      · simp only [Except.ok.injEq, Option.some.injEq] at h
        rw [← h]
      · exact absurd h (by simp)

theorem collectGroups_mem (frameIdx xIdx yIdx : Nat) :
    ∀ (G : List (Cell × List (List Cell))) (ts : List (Cell × List ℚ × List ℚ)),
      collectGroups frameIdx xIdx yIdx G = .ok ts →
      ∀ tr ∈ ts, ∃ g ∈ G, processGroup frameIdx xIdx yIdx g.1 g.2 = .ok (some tr) := by
  intro G
  induction G with
  | nil =>
    intro ts h tr htr
    simp only [collectGroups, Except.ok.injEq] at h
    rw [← h] at htr
    simp at htr
  | cons g gs ih =>
    intro ts h tr htr
    obtain ⟨k, rs⟩ := g
    unfold collectGroups at h
    cases hp : processGroup frameIdx xIdx yIdx k rs with
    | error e => rw [hp] at h; exact absurd h (by simp)
    | ok o =>
      cases o with
      | none =>
        rw [hp] at h
        obtain ⟨g2, hg2, hpg⟩ := ih ts h tr htr
        exact ⟨g2, List.mem_cons_of_mem _ hg2, hpg⟩
      | some tr0 =>
        rw [hp] at h
        cases hc : collectGroups frameIdx xIdx yIdx gs with
        | error e => rw [hc] at h; exact absurd h (by simp)
        | ok ts0 =>
          rw [hc] at h
          simp only [Except.ok.injEq] at h
          rw [← h] at htr
          rcases List.mem_cons.mp htr with h1 | h1
          · rw [h1]
            exact ⟨(k, rs), List.mem_cons_self _ _, hp⟩
          · obtain ⟨g2, hg2, hpg⟩ := ih ts0 hc tr h1
            exact ⟨g2, List.mem_cons_of_mem _ hg2, hpg⟩

theorem groupsOf_keys_nodup (rows : List (List Cell)) (trackIdx : Nat) :
    ((groupsOf rows trackIdx).map Prod.fst).Nodup := by
  unfold groupsOf
  rw [List.map_map]
  have heq : (Prod.fst ∘ fun k => (k, rows.filter (fun r => getCell r trackIdx == k)))
      = fun k => k := rfl
  rw [heq]
  simpa using List.nodup_dedup _

theorem keys_nodup_unique {β : Type} :
    ∀ (l : List (Cell × β)), (l.map Prod.fst).Nodup →
      ∀ (k : Cell) (a b : β), (k, a) ∈ l → (k, b) ∈ l → a = b := by
  intro l
  induction l with
  | nil => intro _ k a b h; simp at h
  | cons e t ih =>
    intro hnd k a b ha hb
    simp only [List.map_cons, List.nodup_cons] at hnd
    obtain ⟨hne, hnd2⟩ := hnd
    rcases List.mem_cons.mp ha with h1 | h1 <;> rcases List.mem_cons.mp hb with h2 | h2
    · rw [← h1] at h2
      exact (Prod.mk.injEq _ _ _ _ ▸ h2).2.symm
    · exfalso
      apply hne
      rw [← h1]
      exact List.mem_map.mpr ⟨(k, b), h2, rfl⟩
    · exfalso
      apply hne
      rw [← h2]
      exact List.mem_map.mpr ⟨(k, a), h1, rfl⟩
    · exact ih hnd2 k a b h1 h2

theorem preprocess_eq_of_resolved (tbl : Table) (tc fc xc yc : String) (j1 j2 j3 j4 : Nat)
    (h1 : find_column (cleanHeadersOf tbl) trackCandidates = some (tc, j1))
    (h2 : find_column (cleanHeadersOf tbl) frameCandidates = some (fc, j2))
    (h3 : find_column (cleanHeadersOf tbl) xCandidates = some (xc, j3))
    (h4 : find_column (cleanHeadersOf tbl) yCandidates = some (yc, j4)) :
    preprocess_trajectory tbl
      = match collectGroups ((cleanHeadersOf tbl).findIdx (fun c => c == fc))
            ((cleanHeadersOf tbl).findIdx (fun c => c == xc))
            ((cleanHeadersOf tbl).findIdx (fun c => c == yc))
            (groupsOf tbl.rows ((cleanHeadersOf tbl).findIdx (fun c => c == tc))) with
        | .error e => .error e
        | .ok [] => .ok (.fail "0 valid tracks found (check lengths).")
        | .ok triples =>
          .ok (.ok (triples.map (fun tr => (diffList tr.2.1).map (fun d => [d])))
            (triples.map (fun tr => tr.1)) ⟨cleanHeadersOf tbl, tbl.rows⟩ "Success") := by
  unfold preprocess_trajectory
  dsimp only
  rw [h1, h2, h3, h4]

/-- C6. Degenerate-track exclusion: a group with fewer than 3 samples or zero
shifted time span is skipped (not an error); a skipped group never contributes
its key to the surviving id list; when zero groups survive, preprocessing
fails with the no-valid-tracks message; and a preprocessing failure is an
absent run_inference result. -/
theorem c6_degenerate_exclusion :
    (∀ (frameIdx xIdx yIdx : Nat) (key : Cell) (rows : List (List Cell)) (ts : List ℚ),
        seriesOf frameIdx frameIdx rows = some ts →
        ts.length < 3 ∨ maxQ (shiftTimes ts) = 0 →
        processGroup frameIdx xIdx yIdx key rows = .ok none)
    ∧ (∀ (tbl : Table) (tc fc xc yc : String) (j1 j2 j3 j4 : Nat) (ids : List Cell),
        find_column (cleanHeadersOf tbl) trackCandidates = some (tc, j1) →
        find_column (cleanHeadersOf tbl) frameCandidates = some (fc, j2) →
        find_column (cleanHeadersOf tbl) xCandidates = some (xc, j3) →
        find_column (cleanHeadersOf tbl) yCandidates = some (yc, j4) →
        preprocessedIds tbl = some ids →
        ∀ (k : Cell) (rs : List (List Cell)),
          (k, rs) ∈ groupsOf tbl.rows ((cleanHeadersOf tbl).findIdx (fun c => c == tc)) →
          processGroup ((cleanHeadersOf tbl).findIdx (fun c => c == fc))
              ((cleanHeadersOf tbl).findIdx (fun c => c == xc))
              ((cleanHeadersOf tbl).findIdx (fun c => c == yc)) k rs = .ok none →
          k ∉ ids)
    ∧ (∀ (tbl : Table) (tc fc xc yc : String) (j1 j2 j3 j4 : Nat),
        find_column (cleanHeadersOf tbl) trackCandidates = some (tc, j1) →
        find_column (cleanHeadersOf tbl) frameCandidates = some (fc, j2) →
        find_column (cleanHeadersOf tbl) xCandidates = some (xc, j3) →
        find_column (cleanHeadersOf tbl) yCandidates = some (yc, j4) →
        collectGroups ((cleanHeadersOf tbl).findIdx (fun c => c == fc))
            ((cleanHeadersOf tbl).findIdx (fun c => c == xc))
            ((cleanHeadersOf tbl).findIdx (fun c => c == yc))
            (groupsOf tbl.rows ((cleanHeadersOf tbl).findIdx (fun c => c == tc))) = .ok [] →
        preprocess_trajectory tbl = .ok (.fail "0 valid tracks found (check lengths)."))
    ∧ (∀ (model : Option Predictor) (ft : String) (tbl : Table) (m : String),
        tbl.rows.isEmpty = false →
        preprocess_trajectory tbl = .ok (.fail m) →
        run_inference model (.ok tbl) ft = (none, 0, 0, m)) := by
  refine ⟨?_, ?_, ?_, ?_⟩
  · intro frameIdx xIdx yIdx key rows ts hs hdeg
    unfold processGroup
    rw [hs]
    simp only
    have hlen : (shiftTimes ts).length = ts.length := by simp [shiftTimes]
    rw [if_pos]
    rw [hlen]
    exact hdeg
  · intro tbl tc fc xc yc j1 j2 j3 j4 ids h1 h2 h3 h4 hids k rs hmem hskip
    unfold preprocessedIds at hids
    rw [preprocess_eq_of_resolved tbl tc fc xc yc j1 j2 j3 j4 h1 h2 h3 h4] at hids
    cases hcg : collectGroups ((cleanHeadersOf tbl).findIdx (fun c => c == fc))
        ((cleanHeadersOf tbl).findIdx (fun c => c == xc))
        ((cleanHeadersOf tbl).findIdx (fun c => c == yc))
        (groupsOf tbl.rows ((cleanHeadersOf tbl).findIdx (fun c => c == tc))) with
    | error e => rw [hcg] at hids; exact absurd hids (by simp)
    | ok triples =>
      rw [hcg] at hids
      cases triples with
      | nil => exact absurd hids (by simp)
      | cons tr0 ts0 =>
        simp only [Option.some.injEq] at hids
        intro hk
        rw [← hids] at hk
        obtain ⟨tr, htr, hkey⟩ := List.mem_map.mp hk
        obtain ⟨g2, hg2, hpg⟩ := collectGroups_mem _ _ _ _ _ hcg tr htr
        have hgk : g2.1 = k := by rw [processGroup_key _ _ _ _ _ _ hpg] at hkey; exact hkey
        have hnd := groupsOf_keys_nodup tbl.rows ((cleanHeadersOf tbl).findIdx (fun c => c == tc))
        have hg2m : (k, g2.2) ∈ groupsOf tbl.rows ((cleanHeadersOf tbl).findIdx (fun c => c == tc)) := by
          rw [← hgk]
          exact hg2
        have hsame := keys_nodup_unique _ hnd k rs g2.2 hmem hg2m
        rw [hgk, ← hsame] at hpg
        rw [hskip] at hpg
        exact absurd hpg (by simp)
  · intro tbl tc fc xc yc j1 j2 j3 j4 h1 h2 h3 h4 hcg
    rw [preprocess_eq_of_resolved tbl tc fc xc yc j1 j2 j3 j4 h1 h2 h3 h4]
    rw [hcg]
  · intro model ft tbl m hne hfail
    simp only [run_inference, run_inference_e, hne, hfail, Bool.false_eq_true, if_false]

/-- Witness for C6: in a concrete file holding a 2-sample track 1, a
time-collapsed track 2 and a valid track 3, both degenerate groups are
skipped, track 1 is absent from the surviving ids, and a file holding only a
degenerate track fails preprocessing with the no-valid-tracks message and
yields an absent run_inference result. -/
theorem c6_degenerate_exclusion_witness :
    processGroup 1 2 3 (Cell.int 1)
        [[Cell.int 1, Cell.int 0, Cell.int 0, Cell.int 0],
         [Cell.int 1, Cell.int 1, Cell.int 1, Cell.int 0]] = .ok none
    ∧ processGroup 1 2 3 (Cell.int 2)
        [[Cell.int 2, Cell.int 5, Cell.int 0, Cell.int 0],
         [Cell.int 2, Cell.int 5, Cell.int 1, Cell.int 0],
         [Cell.int 2, Cell.int 5, Cell.int 2, Cell.int 0],
         [Cell.int 2, Cell.int 5, Cell.int 3, Cell.int 0]] = .ok none
    ∧ Cell.int 1 ∉ [Cell.int 3]
    ∧ preprocess_trajectory
        ⟨["Trajectory", "Frame", "x", "y"],
         [[Cell.int 1, Cell.int 0, Cell.int 0, Cell.int 0],
          [Cell.int 1, Cell.int 1, Cell.int 1, Cell.int 0]]⟩
        = .ok (.fail "0 valid tracks found (check lengths).")
    ∧ run_inference none
        (.ok ⟨["Trajectory", "Frame", "x", "y"],
          [[Cell.int 1, Cell.int 0, Cell.int 0, Cell.int 0],
           [Cell.int 1, Cell.int 1, Cell.int 1, Cell.int 0]]⟩) "All"
        = (none, 0, 0, "0 valid tracks found (check lengths).") := by
  have h := c6_degenerate_exclusion
  refine ⟨?_, ?_, ?_, ?_, ?_⟩
  · exact h.1 1 2 3 (Cell.int 1) _ [0, 1] rfl (Or.inl (by decide))
  · exact h.1 1 2 3 (Cell.int 2) _ [5, 5, 5, 5] rfl (Or.inr (by decide))
  · exact h.2.1
      ⟨["Trajectory", "Frame", "x", "y"],
       [[Cell.int 1, Cell.int 0, Cell.int 0, Cell.int 0],
        [Cell.int 1, Cell.int 1, Cell.int 1, Cell.int 0],
        [Cell.int 2, Cell.int 5, Cell.int 0, Cell.int 0],
        [Cell.int 2, Cell.int 5, Cell.int 1, Cell.int 0],
        [Cell.int 2, Cell.int 5, Cell.int 2, Cell.int 0],
        [Cell.int 2, Cell.int 5, Cell.int 3, Cell.int 0],
        [Cell.int 3, Cell.int 0, Cell.int 0, Cell.int 0],
        [Cell.int 3, Cell.int 1, Cell.int 1, Cell.int 0],
        [Cell.int 3, Cell.int 2, Cell.int 2, Cell.int 0]]⟩
      "Trajectory" "Frame" "x" "y" 0 1 2 3 [Cell.int 3]
      rfl rfl rfl rfl rfl (Cell.int 1)
      [[Cell.int 1, Cell.int 0, Cell.int 0, Cell.int 0],
       [Cell.int 1, Cell.int 1, Cell.int 1, Cell.int 0]]
      (by decide) rfl
  · exact h.2.2.1
      ⟨["Trajectory", "Frame", "x", "y"],
       [[Cell.int 1, Cell.int 0, Cell.int 0, Cell.int 0],
        [Cell.int 1, Cell.int 1, Cell.int 1, Cell.int 0]]⟩
      "Trajectory" "Frame" "x" "y" 0 1 2 3 rfl rfl rfl rfl rfl
  · exact h.2.2.2 none "All"
      ⟨["Trajectory", "Frame", "x", "y"],
       [[Cell.int 1, Cell.int 0, Cell.int 0, Cell.int 0],
        [Cell.int 1, Cell.int 1, Cell.int 1, Cell.int 0]]⟩
      "0 valid tracks found (check lengths)." rfl
      (h.2.2.1
        ⟨["Trajectory", "Frame", "x", "y"],
         [[Cell.int 1, Cell.int 0, Cell.int 0, Cell.int 0],
          [Cell.int 1, Cell.int 1, Cell.int 1, Cell.int 0]]⟩
        "Trajectory" "Frame" "x" "y" 0 1 2 3 rfl rfl rfl rfl rfl)
/-- C10. Implicit per-group numeric guard: a group whose x or y series does
not convert to floats is silently skipped, exactly like an undersized or
time-collapsed group; a successful preprocessing always reports the plain
success message with no mention of skipped groups; and the guard does not
cover the frame column, whose conversion failure raises and surfaces as the
generic error result of run_inference. -/
theorem c10_numeric_guard :
    (∀ (frameIdx xIdx yIdx : Nat) (key : Cell) (rows : List (List Cell)) (ts : List ℚ),
        seriesOf frameIdx frameIdx rows = some ts →
        ¬(ts.length < 3 ∨ maxQ (shiftTimes ts) = 0) →
        (seriesOf frameIdx xIdx rows = none ∨ seriesOf frameIdx yIdx rows = none) →
        processGroup frameIdx xIdx yIdx key rows = .ok none)
    ∧ (∀ (tbl : Table) (ids : List Cell),
        preprocessedIds tbl = some ids → preprocessedMsg tbl = some "Success")
    ∧ (∀ (frameIdx xIdx yIdx : Nat) (key : Cell) (rows : List (List Cell)),
        seriesOf frameIdx frameIdx rows = none →
        processGroup frameIdx xIdx yIdx key rows
          = .error "could not convert string to float")
    ∧ (∀ (model : Option Predictor) (ft : String) (tbl : Table) (e : String),
        tbl.rows.isEmpty = false →
        preprocess_trajectory tbl = .error e →
        run_inference model (.ok tbl) ft = (none, 0, 0, "Error: " ++ e)) := by
  refine ⟨?_, ?_, ?_, ?_⟩
  · intro frameIdx xIdx yIdx key rows ts hs hnd hxy
    unfold processGroup
    rw [hs]
    simp only
    have hlen : (shiftTimes ts).length = ts.length := by simp [shiftTimes]
    rw [if_neg (by rw [hlen]; exact hnd)]
    rcases hxy with hx | hy
    · rw [hx]
    · rw [hy]
      cases seriesOf frameIdx xIdx rows <;> rfl
  · intro tbl ids h
    unfold preprocessedIds at h
    unfold preprocessedMsg
    cases hp : preprocess_trajectory tbl with
    | error e => rw [hp] at h; exact absurd h (by simp)
    | ok pr =>
      rw [hp] at h
      cases pr with
      | fail m => exact absurd h (by simp)
      | ok X ids2 ref m =>
        have hm : m = "Success" := by
          unfold preprocess_trajectory at hp
          dsimp only at hp
          split at hp
          · split at hp
            · exact absurd hp (by simp)
            · exact absurd hp (by simp)
            · simp only [Except.ok.injEq, PreResult.ok.injEq] at hp
              exact hp.2.2.2.symm
          · exact absurd hp (by simp)
        rw [hm]
  · intro frameIdx xIdx yIdx key rows hs
    unfold processGroup
    rw [hs]
  · intro model ft tbl e hne herr
    simp only [run_inference, run_inference_e, hne, herr, Bool.false_eq_true, if_false]

/-- Witness for C10: a 3-sample group with text x values is skipped silently;
in a file holding such a group beside a valid track 2, preprocessing succeeds
with the plain success message and only track 2 survives; a group with text
frame values raises instead, and a file holding it yields the generic error
result. -/
theorem c10_numeric_guard_witness :
    processGroup 1 2 3 (Cell.int 1)
        [[Cell.int 1, Cell.int 0, Cell.str "a", Cell.int 0],
         [Cell.int 1, Cell.int 1, Cell.str "b", Cell.int 0],
         [Cell.int 1, Cell.int 2, Cell.str "c", Cell.int 0]] = .ok none
    ∧ preprocessedMsg
        ⟨["Trajectory", "Frame", "x", "y"],
         [[Cell.int 1, Cell.int 0, Cell.str "a", Cell.int 0],
          [Cell.int 1, Cell.int 1, Cell.str "b", Cell.int 0],
          [Cell.int 1, Cell.int 2, Cell.str "c", Cell.int 0],
          [Cell.int 2, Cell.int 0, Cell.int 0, Cell.int 0],
          [Cell.int 2, Cell.int 1, Cell.int 1, Cell.int 0],
          [Cell.int 2, Cell.int 2, Cell.int 2, Cell.int 0]]⟩ = some "Success"
    ∧ preprocessedIds
        ⟨["Trajectory", "Frame", "x", "y"],
         [[Cell.int 1, Cell.int 0, Cell.str "a", Cell.int 0],
          [Cell.int 1, Cell.int 1, Cell.str "b", Cell.int 0],
          [Cell.int 1, Cell.int 2, Cell.str "c", Cell.int 0],
          [Cell.int 2, Cell.int 0, Cell.int 0, Cell.int 0],
          [Cell.int 2, Cell.int 1, Cell.int 1, Cell.int 0],
          [Cell.int 2, Cell.int 2, Cell.int 2, Cell.int 0]]⟩ = some [Cell.int 2]
    ∧ processGroup 1 2 3 (Cell.int 1)
        [[Cell.int 1, Cell.str "bad", Cell.int 0, Cell.int 0],
         [Cell.int 1, Cell.str "bae", Cell.int 1, Cell.int 0],
         [Cell.int 1, Cell.str "baf", Cell.int 2, Cell.int 0]]
        = .error "could not convert string to float"
    ∧ run_inference none
        (.ok ⟨["Trajectory", "Frame", "x", "y"],
          [[Cell.int 1, Cell.str "bad", Cell.int 0, Cell.int 0],
           [Cell.int 1, Cell.str "bae", Cell.int 1, Cell.int 0],
           [Cell.int 1, Cell.str "baf", Cell.int 2, Cell.int 0]]⟩) "All"
        = (none, 0, 0, "Error: could not convert string to float") := by
  have h := c10_numeric_guard
  refine ⟨?_, ?_, rfl, ?_, ?_⟩
  · exact h.1 1 2 3 (Cell.int 1) _ [0, 1, 2] rfl (by decide) (Or.inl rfl)
  · exact h.2.1 _ [Cell.int 2] rfl
  · exact h.2.2.1 1 2 3 (Cell.int 1) _ rfl
  · exact h.2.2.2 none "All" _ "could not convert string to float" rfl rfl

theorem foldl_min_sorted :
    ∀ (l : List ℚ) (a : ℚ), List.Pairwise (· ≤ ·) (a :: l) → l.foldl min a = a
  | [], _, _ => rfl
  | b :: t, a, h => by
    have hab : a ≤ b := (List.pairwise_cons.mp h).1 b (List.mem_cons_self b t)
    have ht : List.Pairwise (· ≤ ·) (a :: t) := by
      rcases List.pairwise_cons.mp h with ⟨h1, h2⟩
      rcases List.pairwise_cons.mp h2 with ⟨_, h4⟩
      exact List.pairwise_cons.mpr ⟨fun u hu => h1 u (List.mem_cons_of_mem _ hu), h4⟩
    show List.foldl min (min a b) t = a
    rw [min_eq_left hab]
    exact foldl_min_sorted t a ht

theorem foldl_max_init_le : ∀ (l : List ℚ) (a : ℚ), a ≤ l.foldl max a
  | [], a => le_refl a
  | b :: t, a => le_trans (le_max_left a b) (foldl_max_init_le t (max a b))

theorem le_foldl_max : ∀ (l : List ℚ) (a x : ℚ), x ∈ l → x ≤ l.foldl max a
  | [], _, x, h => absurd h (List.not_mem_nil x)
  | b :: t, a, x, h => by
    show x ≤ List.foldl max (max a b) t
    rcases List.mem_cons.mp h with h | h
    · exact le_trans (h ▸ le_max_right a b) (foldl_max_init_le t (max a b))
    · exact le_foldl_max t (max a b) x h

theorem le_maxQ (l : List ℚ) (x : ℚ) (h : x ∈ l) : x ≤ maxQ l := by
  cases l with
  | nil => simp at h
  | cons a t =>
    rcases List.mem_cons.mp h with h | h
    · rw [h]; exact foldl_max_init_le t a
    · exact le_foldl_max t a x h

theorem interpFrom_ge (q : ℚ) :
    ∀ (pts : List (ℚ × ℚ)) (t0 x0 : ℚ), (∀ p ∈ pts, p.1 ≤ q) →
      interpFrom q t0 x0 pts = (pts.getLastD (t0, x0)).2
  | [], _, _, _ => rfl
  | (t1, x1) :: tl, t0, x0, h => by
    unfold interpFrom
    rw [if_neg (not_lt.mpr (h (t1, x1) (List.mem_cons_self _ _)))]
    rw [interpFrom_ge q tl t1 x1 (fun p hp => h p (List.mem_cons_of_mem _ hp))]
    rw [List.getLastD_cons]

theorem np_interp_ge (q : ℚ) :
    ∀ (pts : List (ℚ × ℚ)), pts ≠ [] → (∀ p ∈ pts, p.1 ≤ q) →
      np_interp q pts = (pts.getLastD (0, 0)).2
  | [], hne, _ => absurd rfl hne
  | (t0, x0) :: tl, _, h => by
    show (if q < t0 then x0 else interpFrom q t0 x0 tl) = (((t0, x0) :: tl).getLastD (0, 0)).2
    rw [if_neg (not_lt.mpr (h (t0, x0) (List.mem_cons_self _ _)))]
    rw [interpFrom_ge q tl t0 x0 (fun p hp => h p (List.mem_cons_of_mem _ hp))]
    rw [List.getLastD_cons]

theorem np_interp_cons (q t0 x0 : ℚ) (tl : List (ℚ × ℚ)) :
    np_interp q ((t0, x0) :: tl) = if q < t0 then x0 else interpFrom q t0 x0 tl := rfl

theorem interpFrom_cons (q t0 x0 t1 x1 : ℚ) (tl : List (ℚ × ℚ)) :
    interpFrom q t0 x0 ((t1, x1) :: tl)
      = if q < t1 then x0 + (x1 - x0) * (q - t0) / (t1 - t0) else interpFrom q t1 x1 tl := rfl

theorem zip_getLastD :
    ∀ (l1 l2 : List ℚ) (a b : ℚ), l1.length = l2.length →
      (l1.zip l2).getLastD (a, b) = (l1.getLastD a, l2.getLastD b)
  | [], [], _, _, _ => rfl
  | [], _ :: _, _, _, h => by simp at h
  | _ :: _, [], _, _, h => by simp at h
  | c :: t, d :: u, a, b, h => by
    rw [List.zip_cons_cons, List.getLastD_cons, List.getLastD_cons, List.getLastD_cons]
    exact zip_getLastD t u c d (by simpa using h)

theorem diffList_length : ∀ (l : List ℚ), (diffList l).length = l.length - 1
  | [] => rfl
  | [_] => rfl
  | x :: y :: t => by
    show (diffList (x :: y :: t)).length = t.length + 1
    unfold diffList
    rw [List.length_cons, diffList_length (y :: t)]
    simp

theorem linspace01_length (n : Nat) : (linspace01 n).length = n := by
  rw [linspace01, List.length_map, List.length_range]

theorem resampleSeries_length (tn xs : List ℚ) :
    (resampleSeries tn xs).length = target_frames := by
  rw [resampleSeries, List.length_map, linspace01_length]

theorem processGroup_rx_length (frameIdx xIdx yIdx : Nat) (key : Cell) (rows : List (List Cell))
    (tr : Cell × List ℚ × List ℚ)
    (h : processGroup frameIdx xIdx yIdx key rows = .ok (some tr)) :
    tr.2.1.length = target_frames := by
  unfold processGroup at h
  cases hs : seriesOf frameIdx frameIdx rows with
  | none => rw [hs] at h; exact absurd h (by simp)
  | some t_raw =>
    rw [hs] at h
    simp only at h
    split at h
    · exact absurd h (by simp)
    · split at h
      · simp only [Except.ok.injEq, Option.some.injEq] at h
        rw [← h]
        exact resampleSeries_length _ _
      · exact absurd h (by simp)

theorem preprocess_shape (tbl : Table) (X : List (List (List ℚ))) (ids : List Cell)
    (ref : Table) (m : String)
    (h : preprocess_trajectory tbl = .ok (.ok X ids ref m)) :
    X.length = ids.length
    ∧ ∀ row ∈ X, row.length = target_frames - 1 ∧ ∀ c ∈ row, c.length = 1 := by
  unfold preprocess_trajectory at h
  dsimp only at h
  split at h
  · rename_i track_col j1 frame_col j2 x_col j3 y_col j4
    split at h
    · exact absurd h (by simp)
    · exact absurd h (by simp)
    · rename_i triples heq
      simp only [Except.ok.injEq, PreResult.ok.injEq] at h
      obtain ⟨hX, hids, _, _⟩ := h
      constructor
      · rw [← hX, ← hids]
        simp
      · intro row hrow
        rw [← hX] at hrow
        obtain ⟨tr, htr, hr⟩ := List.mem_map.mp hrow
        obtain ⟨g2, _, hpg⟩ := collectGroups_mem _ _ _ _ _ heq tr htr
        have hrx := processGroup_rx_length _ _ _ _ _ _ hpg
        constructor
        · rw [← hr, List.length_map, diffList_length, hrx]
        · intro c hc
          rw [← hr] at hc
          obtain ⟨d, _, hd⟩ := List.mem_map.mp hc
          rw [← hd]
          rfl
  · exact absurd h (by simp)

/-- C5 (amended). Resampling: a surviving track with sorted times whose
minimal time occurs once resamples onto exactly 300 points with the first
resampled point equal to the first x value and the last equal to the last
x value (with a repeated minimal time, numpy interp returns the value at the
last occurrence of the minimum instead, which is the correction); and the
model input stacks one row per surviving id, each row being the 299 first
differences of the 300-point x series with a trailing singleton dimension. -/
theorem c5_resampling :
    (∀ (t_raw xs : List ℚ) (t0 : ℚ) (rest : List ℚ),
        t_raw = t0 :: rest →
        xs.length = t_raw.length →
        3 ≤ t_raw.length →
        List.Pairwise (· ≤ ·) t_raw →
        (∀ u ∈ rest, t0 < u) →
        (resampleSeries (normalizeTimes (shiftTimes t_raw)) xs).length = target_frames
        ∧ (resampleSeries (normalizeTimes (shiftTimes t_raw)) xs).head? = xs.head?
        ∧ (resampleSeries (normalizeTimes (shiftTimes t_raw)) xs).getLast? = xs.getLast?)
    ∧ (∀ (tbl : Table), ∀ row ∈ preprocessedInput tbl,
        row.length = target_frames - 1 ∧ ∀ c ∈ row, c.length = 1)
    ∧ (∀ (tbl : Table) (ids : List Cell), preprocessedIds tbl = some ids →
        (preprocessedInput tbl).length = ids.length) := by
  refine ⟨?_, ?_, ?_⟩
  · intro t_raw xs t0 rest ht hlen hge3 hsort huniq
    subst ht
    cases rest with
    | nil => simp at hge3
    | cons t1 rest2 =>
    cases xs with
    | nil => simp at hlen
    | cons x0 xs1 =>
    cases xs1 with
    | nil => simp at hlen
    | cons x1 xs2 =>
    have hmin : minQ (t0 :: t1 :: rest2) = t0 :=
      foldl_min_sorted (t1 :: rest2) t0 hsort
    have hshift : shiftTimes (t0 :: t1 :: rest2)
        = 0 :: (t1 - t0) :: rest2.map (fun u => u - t0) := by
      simp [shiftTimes, hmin]
    have ht1 : 0 < t1 - t0 := by
      have := huniq t1 (List.mem_cons_self _ _)
      linarith
    have hMmem : t1 - t0 ≤ maxQ (shiftTimes (t0 :: t1 :: rest2)) := by
      refine le_maxQ _ _ ?_
      rw [hshift]
      exact List.mem_cons_of_mem _ (List.mem_cons_self _ _)
    have hMpos : 0 < maxQ (shiftTimes (t0 :: t1 :: rest2)) := lt_of_lt_of_le ht1 hMmem
    have htn0 : normalizeTimes (shiftTimes (t0 :: t1 :: rest2))
        = (shiftTimes (t0 :: t1 :: rest2)).map
            (fun t => t / maxQ (shiftTimes (t0 :: t1 :: rest2))) := rfl
    have htn : normalizeTimes (shiftTimes (t0 :: t1 :: rest2))
        = 0 :: ((t1 - t0) / maxQ (shiftTimes (t0 :: t1 :: rest2)))
            :: (rest2.map (fun u => u - t0)).map
                (fun t => t / maxQ (shiftTimes (t0 :: t1 :: rest2))) := by
      rw [htn0, hshift, List.map_cons, List.map_cons, zero_div]
    have hle1 : ∀ u ∈ normalizeTimes (shiftTimes (t0 :: t1 :: rest2)), u ≤ 1 := by
      intro u hu
      rw [htn0] at hu
      obtain ⟨s, hs, rfl⟩ := List.mem_map.mp hu
      rw [div_le_one hMpos]
      exact le_maxQ _ s hs
    have hlen2 : (normalizeTimes (shiftTimes (t0 :: t1 :: rest2))).length
        = (x0 :: x1 :: xs2).length := by
      rw [htn0]
      simp only [List.length_map, shiftTimes]
      exact hlen.symm
    have hv1 : 0 < (t1 - t0) / maxQ (shiftTimes (t0 :: t1 :: rest2)) := div_pos ht1 hMpos
    refine ⟨?_, ?_, ?_⟩
    · exact resampleSeries_length _ _
    · rw [resampleSeries, List.head?_map]
      have hlh : (linspace01 target_frames).head? = some 0 := by decide
      rw [hlh]
      rw [Option.map_some']
      rw [htn, List.zip_cons_cons, List.zip_cons_cons]
      rw [np_interp_cons, if_neg (lt_irrefl 0), interpFrom_cons, if_pos hv1]
      simp
    · rw [resampleSeries, List.getLast?_map]
      have hll : (linspace01 target_frames).getLast? = some 1 := by decide
      rw [hll]
      rw [Option.map_some']
      have hne : (normalizeTimes (shiftTimes (t0 :: t1 :: rest2))).zip (x0 :: x1 :: xs2) ≠ [] := by
        rw [htn, List.zip_cons_cons]
        exact List.cons_ne_nil _ _
      have hfst : ∀ p ∈ (normalizeTimes (shiftTimes (t0 :: t1 :: rest2))).zip (x0 :: x1 :: xs2),
          p.1 ≤ 1 := by
        intro p hp
        obtain ⟨h1, _⟩ := List.of_mem_zip (a := p.1) (b := p.2) (by simpa using hp)
        exact hle1 p.1 h1
      rw [np_interp_ge 1 _ hne hfst]
      rw [zip_getLastD _ _ 0 0 hlen2]
      show some ((x0 :: x1 :: xs2).getLastD 0) = (x0 :: x1 :: xs2).getLast?
      cases hgl : (x0 :: x1 :: xs2).getLast? with
      | none =>
        exact absurd (List.getLast?_eq_none_iff.mp hgl) (List.cons_ne_nil _ _)
      | some w =>
        rw [List.getLastD_eq_getLast?, hgl]
        rfl
  · intro tbl row hrow
    unfold preprocessedInput at hrow
    cases hp : preprocess_trajectory tbl with
    | error e => rw [hp] at hrow; simp at hrow
    | ok pr =>
      rw [hp] at hrow
      cases pr with
      | fail m => simp at hrow
      | ok X ids ref m => exact (preprocess_shape tbl X ids ref m hp).2 row hrow
  · intro tbl ids hids
    unfold preprocessedIds at hids
    unfold preprocessedInput
    cases hp : preprocess_trajectory tbl with
    | error e => rw [hp] at hids; exact absurd hids (by simp)
    | ok pr =>
      rw [hp] at hids
      cases pr with
      | fail m => exact absurd hids (by simp)
      | ok X ids2 ref m =>
        simp only [Option.some.injEq] at hids
        rw [← hids]
        exact (preprocess_shape tbl X ids2 ref m hp).1

/-- Witness for C5 at the specification test: frames [0,2,4,6] with x values
[0,1,2,3] resample to exactly 300 points whose first point is 0 and last
point is 3; and the model input of a concrete one-track file consists of rows
of 299 singleton cells. -/
theorem c5_resampling_witness :
    (resampleSeries (normalizeTimes (shiftTimes [0, 2, 4, 6])) [0, 1, 2, 3]).length
        = target_frames
    ∧ (resampleSeries (normalizeTimes (shiftTimes [0, 2, 4, 6])) [0, 1, 2, 3]).head? = some 0
    ∧ (resampleSeries (normalizeTimes (shiftTimes [0, 2, 4, 6])) [0, 1, 2, 3]).getLast? = some 3
    ∧ (∀ row ∈ preprocessedInput
          ⟨["Trajectory", "Frame", "x", "y"],
           [[Cell.int 9, Cell.int 0, Cell.int 0, Cell.int 0],
            [Cell.int 9, Cell.int 2, Cell.int 1, Cell.int 0],
            [Cell.int 9, Cell.int 4, Cell.int 2, Cell.int 0],
            [Cell.int 9, Cell.int 6, Cell.int 3, Cell.int 0]]⟩,
        row.length = target_frames - 1 ∧ ∀ c ∈ row, c.length = 1) := by
  obtain ⟨h1, h2, h3⟩ := c5_resampling.1 [0, 2, 4, 6] [0, 1, 2, 3] 0 [2, 4, 6] rfl rfl
    (by decide) (by decide) (by decide)
  refine ⟨h1, by rw [h2]; rfl, by rw [h3]; rfl, ?_⟩
  intro row hrow
  exact c5_resampling.2.1 _ row hrow

/-- Counterexample for C5 as frozen, at a surviving track whose minimal frame
value is repeated: with frames [5, 5, 6] and x values [10, 20, 30] the
frame-sorted x series starts at 10, but the first resampled point is 20, the
value at the last occurrence of the minimal time, so the first resampled point
differs from the first value of the track. -/
theorem c5_resampling_counterexample :
    seriesOf 1 2 [[Cell.int 7, Cell.int 5, Cell.int 10, Cell.int 0],
        [Cell.int 7, Cell.int 5, Cell.int 20, Cell.int 0],
        [Cell.int 7, Cell.int 6, Cell.int 30, Cell.int 0]] = some [10, 20, 30]
    ∧ (processedX 1 2 3 (Cell.int 7)
          [[Cell.int 7, Cell.int 5, Cell.int 10, Cell.int 0],
           [Cell.int 7, Cell.int 5, Cell.int 20, Cell.int 0],
           [Cell.int 7, Cell.int 6, Cell.int 30, Cell.int 0]]).map List.head?
        = some (some 20)
    ∧ (20 : ℚ) ≠ 10 := by
  refine ⟨rfl, rfl, by decide⟩

theorem run_inference_none_counts (model : Option Predictor) (read : Except String Table)
    (ft : String) (r : Option Table × Nat × Nat × String)
    (h : run_inference_e model read ft = .ok r) (hn : r.1 = none) :
    r.2.1 = 0 ∧ r.2.2.1 = 0 := by
  unfold run_inference_e at h
  dsimp only at h
  repeat' split at h
  all_goals
    first
      | exact Except.noConfusion h
      | (simp only [Except.ok.injEq] at h; rw [← h]; exact ⟨rfl, rfl⟩)
      | (simp only [Except.ok.injEq] at h; rw [← h] at hn; simp at hn)

/-- C8 (amended). run_inference never lets an exception escape: every absent
result carries zero counts and a message; a read error and an empty file fail
in the first step; but the missing-model check runs only after preprocessing,
so calling run_inference without a loaded model returns the preprocessing
failure message when preprocessing fails, and the missing-model message only
when preprocessing succeeds (the correction relative to the written claim). -/
theorem c8_failure_structure :
    (∀ (model : Option Predictor) (read : Except String Table) (ft : String),
        (run_inference model read ft).1 = none →
        (run_inference model read ft).2.1 = 0 ∧ (run_inference model read ft).2.2.1 = 0)
    ∧ (∀ (model : Option Predictor) (ft : String) (e : String),
        run_inference model (.error e) ft = (none, 0, 0, "Error: " ++ e))
    ∧ (∀ (model : Option Predictor) (ft : String) (tbl : Table),
        tbl.rows.isEmpty = true →
        run_inference model (.ok tbl) ft = (none, 0, 0, "File is empty."))
    ∧ (∀ (ft : String) (tbl : Table) (m : String),
        tbl.rows.isEmpty = false →
        preprocess_trajectory tbl = .ok (.fail m) →
        run_inference none (.ok tbl) ft = (none, 0, 0, m))
    ∧ (∀ (ft : String) (tbl : Table),
        tbl.rows.isEmpty = false →
        (preprocessedIds tbl).isSome = true →
        run_inference none (.ok tbl) ft = (none, 0, 0, "Model not loaded.")) := by
  refine ⟨?_, ?_, ?_, ?_, ?_⟩
  · intro model read ft
    unfold run_inference
    cases hre : run_inference_e model read ft with
    | error e => intro _; exact ⟨rfl, rfl⟩
    | ok r => intro hn; exact run_inference_none_counts model read ft r hre hn
  · intro model ft e
    rfl
  · intro model ft tbl he
    simp only [run_inference, run_inference_e, he, if_true]
  · intro ft tbl m hne hfail
    simp only [run_inference, run_inference_e, hne, hfail, Bool.false_eq_true, if_false]
  · intro ft tbl hne hsome
    unfold preprocessedIds at hsome
    cases hp : preprocess_trajectory tbl with
    | error e => rw [hp] at hsome; simp at hsome
    | ok pr =>
      cases pr with
      | fail m => rw [hp] at hsome; simp at hsome
      | ok X ids ref m =>
        simp only [run_inference, run_inference_e, hne, hp, Bool.false_eq_true, if_false]

/-- Witness for C8: a read failure, an empty file, a no-model call on an
unresolvable file (which reports the missing columns, not the missing model)
and a no-model call on a good file (which reports the missing model), each at
concrete inputs. -/
theorem c8_failure_structure_witness :
    ((run_inference none (.error "boom") "All").2.1 = 0
      ∧ (run_inference none (.error "boom") "All").2.2.1 = 0)
    ∧ run_inference none (.error "boom") "All" = (none, 0, 0, "Error: boom")
    ∧ run_inference none (.ok ⟨["Trajectory", "Frame", "x", "y"], []⟩) "All"
        = (none, 0, 0, "File is empty.")
    ∧ run_inference none (.ok ⟨["a", "b", "c"], [[Cell.int 1, Cell.int 2, Cell.int 3]]⟩) "All"
        = (none, 0, 0, "Missing columns. Found: None, None")
    ∧ run_inference none
        (.ok ⟨["Trajectory", "Frame", "x", "y"],
          [[Cell.int 1, Cell.int 0, Cell.int 0, Cell.int 0],
           [Cell.int 1, Cell.int 1, Cell.int 1, Cell.int 0],
           [Cell.int 1, Cell.int 2, Cell.int 2, Cell.int 0]]⟩) "All"
        = (none, 0, 0, "Model not loaded.") := by
  have h := c8_failure_structure
  refine ⟨h.1 none (.error "boom") "All" rfl, h.2.1 none "All" "boom", ?_, ?_, ?_⟩
  · exact h.2.2.1 none "All" _ rfl
  · exact h.2.2.2.1 "All" _ "Missing columns. Found: None, None" rfl rfl
  · exact h.2.2.2.2 "All" _ rfl rfl

/-- Counterexample for C8 as frozen: without a loaded model, a file whose
columns do not resolve fails with the missing-columns message, not the
missing-model message, because the missing-model check runs after
preprocessing. -/
theorem c8_order_counterexample :
    run_inference none (.ok ⟨["a", "b", "c"], [[Cell.int 1, Cell.int 2, Cell.int 3]]⟩) "All"
        = (none, 0, 0, "Missing columns. Found: None, None")
    ∧ "Missing columns. Found: None, None" ≠ "Model not loaded." := by
  exact ⟨rfl, by decide⟩

theorem preprocess_ref (tbl : Table) (X : List (List (List ℚ))) (ids : List Cell)
    (ref : Table) (m : String)
    (h : preprocess_trajectory tbl = .ok (.ok X ids ref m)) :
    ref = ⟨cleanHeadersOf tbl, tbl.rows⟩ := by
  unfold preprocess_trajectory at h
  dsimp only at h
  split at h
  · split at h
    · exact absurd h (by simp)
    · exact absurd h (by simp)
    · simp only [Except.ok.injEq, PreResult.ok.injEq] at h
      exact h.2.2.1.symm
  · exact absurd h (by simp)

/-- C4 (amended). Counts and filtering: for a file that preprocesses
successfully, provided the hardcoded write-back track lookup succeeds (which
the frozen claim does not require: without it the error path returns zero
counts despite successful preprocessing), the returned originalCount is the
number of surviving trajectories (never the raw row count) and the returned
filteredCount is the number of survivors whose predicted label is kept by the
filter; with filterType All the filteredCount equals the originalCount; and
with a specific filterType matching nothing, run_inference returns the
empty-but-present zero-row table, the original count, zero and the no-tracks
message, with no proviso. -/
theorem c4_counts_filtering (predict : Predictor) (tbl : Table) (ft : String) (ids : List Cell)
    (h0 : tbl.rows.isEmpty = false)
    (h1 : preprocessedIds tbl = some ids)
    (h2 : (predict (preprocessedInput tbl)).length = ids.length) :
    (hasWritebackTrackCol tbl = true →
        (run_inference (some predict) (.ok tbl) ft).2.1 = ids.length
        ∧ (run_inference (some predict) (.ok tbl) ft).2.2.1
            = (if ft ≠ "All"
                then (ids.zip ((predict (preprocessedInput tbl)).map labelOf)).filter
                  (fun p => p.2 == ft)
                else ids.zip ((predict (preprocessedInput tbl)).map labelOf)).length)
    ∧ (ft = "All" → hasWritebackTrackCol tbl = true →
        (run_inference (some predict) (.ok tbl) ft).2.2.1 = ids.length)
    ∧ (ft ≠ "All" →
        (ids.zip ((predict (preprocessedInput tbl)).map labelOf)).filter
            (fun p => p.2 == ft) = [] →
        run_inference (some predict) (.ok tbl) ft
          = (some emptyTable, ids.length, 0, "No " ++ ft ++ " tracks.")) := by
  unfold preprocessedIds at h1
  cases hp : preprocess_trajectory tbl with
  | error e => rw [hp] at h1; exact absurd h1 (by simp)
  | ok pr =>
    rw [hp] at h1
    cases pr with
    | fail m => exact absurd h1 (by simp)
    | ok X ids0 ref m =>
      simp only [Option.some.injEq] at h1
      subst h1
      have hX : preprocessedInput tbl = X := by unfold preprocessedInput; rw [hp]
      have href := preprocess_ref tbl X ids0 ref m hp
      rw [hX] at h2 ⊢
      have hplen : ((predict X).map labelOf).length = ids0.length := by
        rw [List.length_map]; exact h2
      have hziplen : (ids0.zip ((predict X).map labelOf)).length = ids0.length := by
        rw [List.length_zip, hplen, min_self]
      refine ⟨?_, ?_, ?_⟩
      · intro hwb
        simp only [run_inference, run_inference_e, h0, hp, Bool.false_eq_true, if_false]
        rw [if_neg (by simp [hplen])]
        by_cases hemp : (if ft ≠ "All"
            then (ids0.zip ((predict X).map labelOf)).filter (fun p => p.2 == ft)
            else ids0.zip ((predict X).map labelOf)).isEmpty = true
        · rw [if_pos hemp]
          rw [List.isEmpty_iff] at hemp
          rw [hemp]
          exact ⟨rfl, rfl⟩
        · rw [if_neg hemp]
          unfold hasWritebackTrackCol at hwb
          have hrefh : ref.headers = cleanHeadersOf tbl := by rw [href]
          rw [← hrefh] at hwb
          cases hfind : ref.headers.find? isWritebackTrackName with
          | none => simp [hfind] at hwb
          | some c => exact ⟨rfl, rfl⟩
      · intro hft hwb
        subst hft
        simp only [run_inference, run_inference_e, h0, hp, Bool.false_eq_true, if_false]
        rw [if_neg (by simp [hplen])]
        rw [if_neg (show ¬("All" ≠ "All") by decide)]
        by_cases hemp : (ids0.zip ((predict X).map labelOf)).isEmpty = true
        · rw [if_pos hemp]
          rw [List.isEmpty_iff] at hemp
          rw [hemp] at hziplen
          simp only [List.length_nil] at hziplen
          exact hziplen
        · rw [if_neg hemp]
          unfold hasWritebackTrackCol at hwb
          have hrefh : ref.headers = cleanHeadersOf tbl := by rw [href]
          rw [← hrefh] at hwb
          cases hfind : ref.headers.find? isWritebackTrackName with
          | none => simp [hfind] at hwb
          | some c => exact hziplen
      · intro hft hfe
        simp only [run_inference, run_inference_e, h0, hp, Bool.false_eq_true, if_false]
        rw [if_neg (by simp [hplen])]
        rw [if_pos hft, hfe]
        rfl

/-- Witness for C4 at the ten-track example of the specification, classified
3 Brownian, 4 FBM, 3 CTRW by batch position: filterType FBM returns
originalCount 10 and filteredCount 4, filterType All returns filteredCount 10,
and a filter matching nothing returns the empty-but-present result with
counts 10 and 0. -/
theorem c4_counts_filtering_witness :
    (run_inference (some predictByIndex) (.ok tenTrackTable) "FBM").2.1 = 10
    ∧ (run_inference (some predictByIndex) (.ok tenTrackTable) "FBM").2.2.1 = 4
    ∧ (run_inference (some predictByIndex) (.ok tenTrackTable) "All").2.2.1 = 10
    ∧ run_inference (some predictAllBrownian) (.ok tenTrackTable) "FBM"
        = (some emptyTable, 10, 0, "No FBM tracks.") := by
  refine ⟨?_, ?_, ?_, ?_⟩
  · exact ((c4_counts_filtering predictByIndex tenTrackTable "FBM" [Cell.int 1, Cell.int 2, Cell.int 3, Cell.int 4, Cell.int 5, Cell.int 6, Cell.int 7, Cell.int 8, Cell.int 9, Cell.int 10]
      rfl rfl rfl).1 rfl).1
  · have h := ((c4_counts_filtering predictByIndex tenTrackTable "FBM" [Cell.int 1, Cell.int 2, Cell.int 3, Cell.int 4, Cell.int 5, Cell.int 6, Cell.int 7, Cell.int 8, Cell.int 9, Cell.int 10]
      rfl rfl rfl).1 rfl).2
    rw [h]
    rfl
  · exact (c4_counts_filtering predictByIndex tenTrackTable "All" [Cell.int 1, Cell.int 2, Cell.int 3, Cell.int 4, Cell.int 5, Cell.int 6, Cell.int 7, Cell.int 8, Cell.int 9, Cell.int 10]
      rfl rfl rfl).2.1 rfl rfl
  · exact (c4_counts_filtering predictAllBrownian tenTrackTable "FBM" [Cell.int 1, Cell.int 2, Cell.int 3, Cell.int 4, Cell.int 5, Cell.int 6, Cell.int 7, Cell.int 8, Cell.int 9, Cell.int 10]
      rfl rfl rfl).2.2 (by decide) rfl

/-- Counterexample for C4 as frozen: a file with track header Particle ID
preprocesses successfully with one surviving trajectory, yet run_inference
returns the error result with originalCount 0, because the write-back lookup
only accepts the four hardcoded track names. -/
theorem c4_counts_counterexample :
    preprocessedIds
        ⟨["Particle ID", "Frame", "x", "y"],
         [[Cell.int 9, Cell.int 0, Cell.int 0, Cell.int 0],
          [Cell.int 9, Cell.int 1, Cell.int 1, Cell.int 0],
          [Cell.int 9, Cell.int 2, Cell.int 2, Cell.int 0]]⟩ = some [Cell.int 9]
    ∧ run_inference (some predictAllBrownian)
        (.ok ⟨["Particle ID", "Frame", "x", "y"],
          [[Cell.int 9, Cell.int 0, Cell.int 0, Cell.int 0],
           [Cell.int 9, Cell.int 1, Cell.int 1, Cell.int 0],
           [Cell.int 9, Cell.int 2, Cell.int 2, Cell.int 0]]⟩) "All"
        = (none, 0, 0, "Error: ")
    ∧ (0 : Nat) ≠ 1 := by
  exact ⟨rfl, rfl, by decide⟩

/-- C2. The write-back lookup defeats the column auto-detection: a file whose
track header is Spot ID preprocesses successfully (the two-pass search
resolves the role and one trajectory survives), yet run_inference returns the
generic error result, because line 127 re-resolves the track column against
the four hardcoded names only and the resulting StopIteration is caught by the
outer handler with an empty exception text. -/
theorem c2_writeback_lookup_failure :
    find_column
        (cleanHeadersOf ⟨["Spot ID", "Frame", "x", "y"],
          [[Cell.int 5, Cell.int 0, Cell.int 0, Cell.int 0],
           [Cell.int 5, Cell.int 1, Cell.int 1, Cell.int 0],
           [Cell.int 5, Cell.int 2, Cell.int 2, Cell.int 0]]⟩) trackCandidates
      = some ("Spot ID", 0)
    ∧ preprocessedIds
        ⟨["Spot ID", "Frame", "x", "y"],
         [[Cell.int 5, Cell.int 0, Cell.int 0, Cell.int 0],
          [Cell.int 5, Cell.int 1, Cell.int 1, Cell.int 0],
          [Cell.int 5, Cell.int 2, Cell.int 2, Cell.int 0]]⟩ = some [Cell.int 5]
    ∧ (cleanHeadersOf ⟨["Spot ID", "Frame", "x", "y"], []⟩).find? isWritebackTrackName = none
    ∧ run_inference (some predictAllBrownian)
        (.ok ⟨["Spot ID", "Frame", "x", "y"],
          [[Cell.int 5, Cell.int 0, Cell.int 0, Cell.int 0],
           [Cell.int 5, Cell.int 1, Cell.int 1, Cell.int 0],
           [Cell.int 5, Cell.int 2, Cell.int 2, Cell.int 0]]⟩) "All"
        = (none, 0, 0, "Error: ") := by
  exact ⟨rfl, rfl, rfl, rfl⟩

/-- C1. The worker loop of main.py has no empty-but-present branch: when
run_inference returns the zero-row table with a zero filtered count, the
worker still writes an output CSV and marks the row Done with the counts,
instead of warning, marking Skipped (0) and suppressing the file; the status
Skipped (0) is unreachable. -/
theorem c1_zero_filtered_still_written :
    run_inference (some predictAllBrownian)
        (.ok ⟨["Trajectory", "Frame", "x", "y"],
          [[Cell.int 1, Cell.int 0, Cell.int 0, Cell.int 0],
           [Cell.int 1, Cell.int 1, Cell.int 1, Cell.int 0],
           [Cell.int 1, Cell.int 2, Cell.int 2, Cell.int 0],
           [Cell.int 2, Cell.int 0, Cell.int 0, Cell.int 0],
           [Cell.int 2, Cell.int 1, Cell.int 1, Cell.int 0],
           [Cell.int 2, Cell.int 2, Cell.int 2, Cell.int 0]]⟩) "FBM"
      = (some emptyTable, 2, 0, "No FBM tracks.")
    ∧ workerFileStep (some emptyTable, 2, 0, "No FBM tracks.") = (true, "Done", 2, 0)
    ∧ (∀ (res : Option Table × Nat × Nat × String),
        (workerFileStep res).2.1 = "Error" ∨ (workerFileStep res).2.1 = "Done")
    ∧ (∀ (res : Option Table × Nat × Nat × String),
        (workerFileStep res).1 = !(res.1.isNone)) := by
  refine ⟨rfl, rfl, ?_, ?_⟩
  · intro res
    cases hr : res.1 with
    | none => left; simp [workerFileStep, hr]
    | some t => right; simp [workerFileStep, hr]
  · intro res
    cases hr : res.1 with
    | none => simp [workerFileStep, hr]
    | some t => simp [workerFileStep, hr]

theorem getCell_set_cast :
    ∀ (r : List Cell) (i : Nat),
      getCell (r.set i (intCastCell (getCell r i))) i = intCastCell (getCell r i)
  | [], _ => by simp [getCell, intCastCell]
  | _ :: _, 0 => rfl
  | c :: t, n + 1 => by
    show getCell (c :: t.set n (intCastCell (getCell (c :: t) (n + 1)))) (n + 1)
        = intCastCell (getCell (c :: t) (n + 1))
    have hg : getCell (c :: t) (n + 1) = getCell t n := rfl
    rw [hg]
    exact getCell_set_cast t n

theorem getCell_set_ne :
    ∀ (r : List Cell) (i j : Nat) (v : Cell), j ≠ i → getCell (r.set i v) j = getCell r j
  | [], _, _, _, _ => rfl
  | c :: t, 0, 0, v, h => absurd rfl h
  | c :: t, 0, j + 1, v, _ => rfl
  | c :: t, i + 1, 0, v, _ => rfl
  | c :: t, i + 1, j + 1, v, h => by
    show getCell (t.set i v) j = getCell t j
    exact getCell_set_ne t i j v (fun he => h (by rw [he]))

theorem colCells_coerce_self (t : Table) (i : Nat) :
    colCells (coerceColToInt t i) i = (colCells t i).map intCastCell := by
  unfold colCells coerceColToInt
  rw [List.map_map, List.map_map]
  apply List.map_congr_left
  intro r _
  exact getCell_set_cast r i

theorem colCells_coerce_ne (t : Table) (i j : Nat) (h : j ≠ i) :
    colCells (coerceColToInt t i) j = colCells t j := by
  unfold colCells coerceColToInt
  rw [List.map_map]
  apply List.map_congr_left
  intro r _
  exact getCell_set_ne r i j _ h

theorem intCastCell_idem (c : Cell) : intCastCell (intCastCell c) = intCastCell c := by
  cases c <;> rfl

/-- C7 (amended). Integer coercion on write-back: a float-dtype track column
is converted to integer representation (truncation toward zero) and a
non-float track column is left untouched without raising; but the frame/time
coercion is attempted only when some clean header, stripped and lower-cased,
is exactly frame, frame id or t - the headers Time and Slice, though
resolvable during preprocessing, are not eligible (the correction relative to
the written claim), and when the frame lookup fails its StopIteration is
swallowed leaving every other column unmodified. -/
theorem c7_integer_coercion :
    (∀ (cleanHs rawHs : List String) (raw filtered : Table) (tIdx : Nat),
        colIsFloatDtype raw tIdx = true →
        colCells (forceIntegers cleanHs rawHs raw filtered tIdx) tIdx
          = (colCells filtered tIdx).map intCastCell)
    ∧ (∀ (cleanHs rawHs : List String) (raw filtered : Table) (tIdx : Nat),
        colIsFloatDtype raw tIdx = false →
        colCells (forceIntegers cleanHs rawHs raw filtered tIdx) tIdx
          = colCells filtered tIdx)
    ∧ (findFrameCoerceCol ["Trajectory", "Time", "x", "y"] = none
        ∧ findFrameCoerceCol ["Trajectory", "Slice", "x", "y"] = none
        ∧ findFrameCoerceCol ["Trajectory", "Frame", "x", "y"] = some "Frame")
    ∧ (∀ (cleanHs rawHs : List String) (raw filtered : Table) (tIdx j : Nat),
        findFrameCoerceCol cleanHs = none → j ≠ tIdx →
        colCells (forceIntegers cleanHs rawHs raw filtered tIdx) j
          = colCells filtered j) := by
  refine ⟨?_, ?_, ⟨by decide, by decide, by decide⟩, ?_⟩
  · intro cleanHs rawHs raw filtered tIdx h
    unfold forceIntegers
    dsimp only
    rw [if_pos h]
    cases hf : findFrameCoerceCol cleanHs with
    | none => exact colCells_coerce_self filtered tIdx
    | some cf =>
      dsimp only
      split
      · by_cases hEq :
            (rawHs.findIdx (fun c =>
              c == rawHs.getD (cleanHs.findIdx (fun c2 => c2 == cf)) "")) = tIdx
        · rw [hEq]
          rw [colCells_coerce_self, colCells_coerce_self, List.map_map]
          apply List.map_congr_left
          intro c _
          exact intCastCell_idem _
        · rw [colCells_coerce_ne _ _ _ (fun he => hEq he.symm)]
          exact colCells_coerce_self filtered tIdx
      · exact colCells_coerce_self filtered tIdx
  · intro cleanHs rawHs raw filtered tIdx h
    unfold forceIntegers
    dsimp only
    rw [if_neg (by rw [h]; exact Bool.false_ne_true)]
    cases hf : findFrameCoerceCol cleanHs with
    | none => rfl
    | some cf =>
      dsimp only
      split
      · rename_i hfloat
        by_cases hEq :
            (rawHs.findIdx (fun c =>
              c == rawHs.getD (cleanHs.findIdx (fun c2 => c2 == cf)) "")) = tIdx
        · rw [hEq] at hfloat
          rw [hfloat] at h
          exact absurd h (by simp)
        · exact colCells_coerce_ne _ _ _ (fun he => hEq he.symm)
      · rfl
  · intro cleanHs rawHs raw filtered tIdx j hf hne
    unfold forceIntegers
    dsimp only
    rw [hf]
    dsimp only
    split
    · exact colCells_coerce_ne _ _ _ hne
    · rfl

/-- Witness for C7: a float track column [1.0, 1.0, 2.0] is written as
[1, 1, 2]; a text track column is left untouched; and with clean headers
whose frame slot is Time the lookup fails and the other columns stay
unmodified. -/
theorem c7_integer_coercion_witness :
    colCells (forceIntegers ["Trajectory", "Frame", "x", "y"]
        ["Trajectory", "Frame", "x", "y"]
        ⟨["Trajectory", "Frame", "x", "y"],
         [[Cell.float 1, Cell.int 0, Cell.int 0, Cell.int 0],
          [Cell.float 1, Cell.int 1, Cell.int 1, Cell.int 0],
          [Cell.float 2, Cell.int 2, Cell.int 2, Cell.int 0]]⟩
        ⟨["Trajectory", "Frame", "x", "y"],
         [[Cell.float 1, Cell.int 0, Cell.int 0, Cell.int 0],
          [Cell.float 1, Cell.int 1, Cell.int 1, Cell.int 0],
          [Cell.float 2, Cell.int 2, Cell.int 2, Cell.int 0]]⟩ 0) 0
      = [Cell.int 1, Cell.int 1, Cell.int 2]
    ∧ colCells (forceIntegers ["Trajectory", "Frame", "x", "y"]
        ["Trajectory", "Frame", "x", "y"]
        ⟨["Trajectory", "Frame", "x", "y"], [[Cell.str "a", Cell.int 0, Cell.int 0, Cell.int 0]]⟩
        ⟨["Trajectory", "Frame", "x", "y"], [[Cell.str "a", Cell.int 0, Cell.int 0, Cell.int 0]]⟩
        0) 0
      = [Cell.str "a"]
    ∧ colCells (forceIntegers ["Trajectory", "Time", "x", "y"]
        ["Trajectory", "Time", "x", "y"]
        ⟨["Trajectory", "Time", "x", "y"], [[Cell.int 1, Cell.float 0, Cell.int 0, Cell.int 0]]⟩
        ⟨["Trajectory", "Time", "x", "y"], [[Cell.int 1, Cell.float 0, Cell.int 0, Cell.int 0]]⟩
        0) 1
      = [Cell.float 0] := by
  refine ⟨?_, ?_, ?_⟩
  · rw [c7_integer_coercion.1 ["Trajectory", "Frame", "x", "y"] ["Trajectory", "Frame", "x", "y"]
      ⟨["Trajectory", "Frame", "x", "y"],
       [[Cell.float 1, Cell.int 0, Cell.int 0, Cell.int 0],
        [Cell.float 1, Cell.int 1, Cell.int 1, Cell.int 0],
        [Cell.float 2, Cell.int 2, Cell.int 2, Cell.int 0]]⟩
      ⟨["Trajectory", "Frame", "x", "y"],
       [[Cell.float 1, Cell.int 0, Cell.int 0, Cell.int 0],
        [Cell.float 1, Cell.int 1, Cell.int 1, Cell.int 0],
        [Cell.float 2, Cell.int 2, Cell.int 2, Cell.int 0]]⟩ 0 rfl]
    rfl
  · rw [c7_integer_coercion.2.1 ["Trajectory", "Frame", "x", "y"] ["Trajectory", "Frame", "x", "y"]
      ⟨["Trajectory", "Frame", "x", "y"], [[Cell.str "a", Cell.int 0, Cell.int 0, Cell.int 0]]⟩
      ⟨["Trajectory", "Frame", "x", "y"], [[Cell.str "a", Cell.int 0, Cell.int 0, Cell.int 0]]⟩
      0 rfl]
    rfl
  · rw [c7_integer_coercion.2.2.2 ["Trajectory", "Time", "x", "y"] ["Trajectory", "Time", "x", "y"]
      ⟨["Trajectory", "Time", "x", "y"], [[Cell.int 1, Cell.float 0, Cell.int 0, Cell.int 0]]⟩
      ⟨["Trajectory", "Time", "x", "y"], [[Cell.int 1, Cell.float 0, Cell.int 0, Cell.int 0]]⟩
      0 1 (by decide) (by decide)]
    rfl

/-- Counterexample for C7 as frozen: a file whose frame header is Time, with
the frame values stored as floats, passes through the write-back coercion
with the Time column left as floats, though Time is resolvable during
preprocessing and the claim would have it coerced to integers. -/
theorem c7_time_column_counterexample :
    ((run_inference (some predictAllBrownian)
        (.ok ⟨["Trajectory", "Time", "x", "y"],
          [[Cell.int 1, Cell.float 0, Cell.int 0, Cell.int 0],
           [Cell.int 1, Cell.float 1, Cell.int 1, Cell.int 0],
           [Cell.int 1, Cell.float 2, Cell.int 2, Cell.int 0]]⟩) "All").1).map
        (fun t => colCells t 1)
      = some [Cell.float 0, Cell.float 1, Cell.float 2]
    ∧ [Cell.float 0, Cell.float 1, Cell.float 2] ≠ [Cell.int 0, Cell.int 1, Cell.int 2] := by
  exact ⟨rfl, by decide⟩
